import Mathlib

/-!
# Verification of the yaci-postgrest EVM decode pipeline

Shallow embedding of the EVM transaction decode pipeline of this repository:

* `src/scripts/decode-evm-daemon.ts`  — batch scheduler daemon (`processBatch`,
  `decodeTransaction`, `detectTokenType`, `fetch4ByteSignature`, the main loop);
* `src/scripts/decode-evm-single.ts`  — on-demand priority decoder
  (`decodeSingleTransaction` and its local `decodeTransaction`);
* the `api.*` schema of the repository (tables `evm_transactions`, `evm_logs`,
  `evm_token_transfers`, `evm_tokens`, `evm_contracts` and the
  `api.evm_pending_decode` view).

Database tables are modelled as association lists keyed by their primary keys;
the SQL `INSERT ... ON CONFLICT (k) DO NOTHING` becomes `insertIfAbsent` and
`INSERT ... ON CONFLICT (k) DO UPDATE ...` becomes `upsertWith`.  Library calls
of the TypeScript code (ethers `Transaction.from`, `keccak256`,
`getCreateAddress`, the protobuf response decoder, the 4byte.directory network
lookup and the ABI argument decoders) are collected in a `Codec` record: the
pipeline is embedded as a function of an arbitrary codec, which is exactly how
the scripts treat those libraries (opaque deterministic calls).

The embedding has two layers.  The *staged* layer (`Daemon.processLog`,
`Daemon.processRow`, `Daemon.processBatch`, ...) records the rows each
statement attempts, with only the conflict-clause semantics — it describes
what the TypeScript asks the database to do.  The *checked* layer
(`insertTxPg`, `insertLogPg`, `insertTransferPg`, `deletePendingPg`,
`Daemon.processRowPg`, `Daemon.processBatchPg`, `Daemon.runBatchCyclePg` and
`Single.decodeSingleTransaction`) additionally enforces the `part_006`
schema: NOT NULL columns without defaults, per-statement foreign keys, the
`NUMERIC` input conversion of bound parameters, and view updatability; a
raise aborts the surrounding transaction and `ROLLBACK` reverts to the
committed store.  Every claim about committed state is settled against the
checked layer.
-/

namespace YaciEvm

/-! ## Association-list primitives (SQL write semantics) -/

/-- Lookup by key in an association list (the row returned by a
`SELECT ... WHERE key = k LIMIT 1`). -/
def alookup {α β : Type} [DecidableEq α] (k : α) : List (α × β) → Option β
  | [] => none
  | (a, b) :: t => if a = k then some b else alookup k t

/-- Key membership (`EXISTS (SELECT 1 ... WHERE key = k)`). -/
def amem {α β : Type} [DecidableEq α] (k : α) (m : List (α × β)) : Bool :=
  (alookup k m).isSome

/-- `INSERT ... ON CONFLICT (key) DO NOTHING`: keep the table unchanged when
the key is already present, otherwise add the row. -/
def insertIfAbsent {α β : Type} [DecidableEq α] (k : α) (v : β) (m : List (α × β)) :
    List (α × β) :=
  if amem k m then m else (k, v) :: m

/-- `INSERT ... ON CONFLICT (key) DO UPDATE ...`: insert `ins` when the key is
absent, otherwise replace the existing row `old` by `upd old` (which encodes
the `SET`/`WHERE` clause of the conflict action). -/
def upsertWith {α β : Type} [DecidableEq α] (k : α) (ins : β) (upd : β → β) :
    List (α × β) → List (α × β)
  | [] => [(k, ins)]
  | (a, b) :: t => if a = k then (a, upd b) :: t else (a, b) :: upsertWith k ins upd t

/-- The list of keys of a table. -/
def keysOf {α β : Type} (m : List (α × β)) : List α := m.map Prod.fst

/-- The table has no duplicate keys (primary-key invariant). -/
def nodupKeys {α β : Type} (m : List (α × β)) : Prop := (keysOf m).Nodup

/-- Number of rows with the given key. -/
def keyCount {α β : Type} [DecidableEq α] (k : α) (m : List (α × β)) : Nat :=
  (keysOf m).count k

/-! ## Event signatures and token classification
(`decode-evm-daemon.ts`, `EVENT_SIGNATURES` and `detectTokenType`) -/

/-- `EVENT_SIGNATURES.TRANSFER` (shared by ERC-20 and ERC-721). -/
def TRANSFER : String :=
  "0xddf252ad1be2c89b69c2b068fc378daa952ba7f163c4a11628f55a4df523b3ef"

/-- `EVENT_SIGNATURES.APPROVAL`. -/
def APPROVAL : String :=
  "0x8c5be1e5ebec7d5bd14f71427d1e84f3dd0314c0f7b2291e5b200ac8c7c3b925"

/-- `EVENT_SIGNATURES.APPROVAL_FOR_ALL`. -/
def APPROVAL_FOR_ALL : String :=
  "0x17307eab39ab6107e8899845ad3d59bd9653f200f220920489ca2b5937696c31"

/-- `EVENT_SIGNATURES.TRANSFER_SINGLE` (ERC-1155). -/
def TRANSFER_SINGLE : String :=
  "0xc3d58168c5ae7397731d063d5bbf3d657854427343f4c083240f7aacaa2d0f62"

/-- `EVENT_SIGNATURES.TRANSFER_BATCH` (ERC-1155). -/
def TRANSFER_BATCH : String :=
  "0x4a39dc06d4c0dbc64b70af90fd698a233a518aa5d07e595d983b8c0526c8f7fb"

/-- Token-standard classification (column `type` of `api.evm_tokens`). -/
inductive TokenType : Type
  | ERC20
  | ERC721
  | ERC1155
deriving DecidableEq, Repr

/-- A decoded log entry as produced by `decodeTxResponse` (interface
`DecodedLog` minus the `tx_id` field, which the daemon stamps separately). -/
structure DecodedLog : Type where
  log_index : Nat
  address : String
  topics : List String
  data : String
deriving DecidableEq, Repr

/-- `detectTokenType` of `decode-evm-daemon.ts`: TransferSingle/TransferBatch
topics are ERC-1155; a Transfer topic with 4 topics is ERC-721, otherwise
ERC-20; anything else is unclassified.  (`log.topics[0]` on an empty topic
list is `undefined` in JS and matches no signature; it is modelled by `""`.) -/
def detectTokenType (log : DecodedLog) : Option TokenType :=
  let topic0 := log.topics.getD 0 ""
  if topic0 = TRANSFER_SINGLE ∨ topic0 = TRANSFER_BATCH then
    some TokenType.ERC1155
  else if topic0 = TRANSFER then
    if log.topics.length = 4 then some TokenType.ERC721 else some TokenType.ERC20
  else
    none

/-! ## Signature resolution (`fetch4ByteSignature` and `sigCache`) -/

/-- The in-process `sigCache : Map<string, string>`. -/
def SigCache : Type := List (String × String)

/-- `fetch4ByteSignature` of `decode-evm-daemon.ts`.  `net` is the
4byte.directory service: `some sig` models a 2xx response whose result list is
non-empty (first `text_signature` taken), `none` models a non-ok response, a
thrown network error, or an empty result list — the code returns `null` for
all three without touching the cache.  The returned `Bool` records whether the
external service was contacted (i.e. the cache missed). -/
def fetch4ByteSignature (net : String → Option String) (cache : SigCache)
    (selector : String) : Option String × SigCache × Bool :=
  match alookup selector cache with
  | some s => (some s, cache, false)
  | none =>
    match net selector with
    | some signature => (some signature, (selector, signature) :: cache, true)
    | none => (none, cache, true)

/-- The static selector table `knownSignatures` of `decode-evm-single.ts`. -/
def knownSignatures : List (String × String) :=
  [("0xa9059cbb", "transfer(address,uint256)"),
   ("0x23b872dd", "transferFrom(address,address,uint256)"),
   ("0x095ea7b3", "approve(address,uint256)"),
   ("0x42842e0e", "safeTransferFrom(address,address,uint256)")]

/-! ## Library calls used by the pipeline -/

/-- The envelope fields recovered by ethers `Transaction.from`, already
normalized the way both scripts use them: `from_` is
`tx.from ? getAddress(tx.from) : ''` and `to` is
`tx.to ? getAddress(tx.to) : null`. -/
structure TxFields : Type where
  from_ : String
  to_ : Option String
  nonce : Nat
  gasLimit : Nat
  gasPrice : Option Nat
  maxFeePerGas : Option Nat
  maxPriorityFeePerGas : Option Nat
  value : Nat
  data : String
  txType : Option Nat
  chainId : Option Nat
deriving DecidableEq, Repr

/-- The result of `decodeTxResponse` (protobuf `MsgEthereumTxResponse`):
log list, gas used, and the VM error already collapsed to `null` when empty
(`response.vmError || null`). -/
structure TxResponse : Type where
  logs : List DecodedLog
  gasUsed : Int
  vmError : Option String
deriving DecidableEq, Repr

/-- The deterministic library calls the two scripts delegate to.  Each field
is one opaque call site:

* `parseTx r` — `Transaction.from(hexlify(atob(r)))` with the address
  normalization both scripts apply; `none` when `atob` or `Transaction.from`
  throws (malformed envelope);
* `keccakOfRaw r` — `keccak256(hexlify(atob(r)))`, the content hash;
* `keccakHex d` — `keccak256(d)` over an already-hex string (init-code hash);
* `parseResponse h` — `decodeTxResponse(h, root)`; `none` when protobuf
  decoding throws;
* `getCreateAddress f n` — ethers `getCreateAddress({from: f, nonce: n})`;
* `abiDecodePair d` — `AbiCoder.decode(['uint256','uint256'], d)`; `none`
  when it throws;
* `fetchSig s` — the 4byte.directory response for selector `s` (see
  `fetch4ByteSignature`);
* `decodeArgs d sig` — `decodeFunctionCall(d, sig)`; `none` when parsing
  fails. -/
structure Codec : Type where
  parseTx : String → Option TxFields
  keccakOfRaw : String → String
  keccakHex : String → String
  parseResponse : String → Option TxResponse
  getCreateAddress : String → Nat → String
  abiDecodePair : String → Option (Nat × Nat)
  fetchSig : String → Option String
  decodeArgs : String → String → Option (List (String × String))

/-! ## Data model (rows of the `api.*` EVM tables) -/

/-- The `DecodedTx` interface of `decode-evm-daemon.ts` (the single decoder's
interface is the same minus `decoded_args`/`contract_address`, which it leaves
null). -/
structure DecodedTx : Type where
  tx_id : String
  hash : String
  from_ : String
  to_ : Option String
  nonce : Nat
  gas_limit : Nat
  gas_price : Nat
  max_fee_per_gas : Option Nat
  max_priority_fee_per_gas : Option Nat
  value : Nat
  data : String
  type : Nat
  chain_id : Option Nat
  gas_used : Option Int
  status : Int
  function_name : Option String
  function_signature : Option String
  decoded_args : Option (List (String × String))
  contract_address : Option String
deriving DecidableEq, Repr

/-- A stored row of `api.evm_transactions` (all columns that the pipeline
writes; `tx_id` is the key of the association list).  Columns omitted by an
`INSERT` are `none` (SQL `NULL`) unless the schema supplies a default. -/
structure TxRow : Type where
  hash : String
  from_ : String
  to_ : Option String
  nonce : Option Nat
  gas_limit : Option Nat
  gas_price : Option Nat
  max_fee_per_gas : Option Nat
  max_priority_fee_per_gas : Option Nat
  value : Option Nat
  data : Option String
  type : Option Nat
  chain_id : Option Nat
  gas_used : Option Int
  status : Int
  function_name : Option String
  function_signature : Option String
  decoded_args : Option (List (String × String))
  contract_address : Option String
deriving DecidableEq, Repr

/-- The schema of `api.evm_transactions` declares
`nonce BIGINT NOT NULL`, `gas_limit BIGINT NOT NULL`,
`gas_price NUMERIC NOT NULL` and `value NUMERIC NOT NULL`, none of them with a
default: a staged row can only be committed when these four columns are
non-null. -/
def evmTxNotNull (r : TxRow) : Bool :=
  r.nonce.isSome && r.gas_limit.isSome && r.gas_price.isSome && r.value.isSome

/-- The PostgreSQL errors the pipeline's statements can raise against the
`part_006` schema. -/
inductive PgError : Type
  | notNullViolation
  | fkViolation
  | invalidNumeric
  | nonUpdatableView
deriving DecidableEq, Repr

/-- Representative first line of each PostgreSQL error message (what the
node-postgres `err.message` carries); the claims rely only on which statement
raises, not on the wording. -/
def PgError.message : PgError → String
  | PgError.notNullViolation => "null value violates not-null constraint"
  | PgError.fkViolation =>
      "insert or update on table violates foreign key constraint"
  | PgError.invalidNumeric => "invalid input syntax for type numeric"
  | PgError.nonUpdatableView => "cannot delete from view \"evm_pending_decode\""

/-- Acceptance of a string by the `NUMERIC` input conversion: an optional
sign, then digits with at most one decimal point and at least one digit.
(PostgreSQL additionally accepts exponents, `NaN`/`Infinity` and surrounding
whitespace, none of which this pipeline ever binds; what matters here is that
a string containing `x`, `:` or other letters is rejected.) -/
def pgNumericOk (s : String) : Bool :=
  let body : List Char :=
    match s.toList with
    | c :: rest => if c = '-' ∨ c = '+' then rest else s.toList
    | [] => []
  body.any Char.isDigit &&
  body.all (fun ch => ch.isDigit || ch == '.') &&
  (body.filter (fun ch => ch == '.')).length ≤ 1

/-- A row of `api.evm_logs` (keyed by `(tx_id, log_index)`). -/
structure LogRow : Type where
  address : String
  topics : List String
  data : String
deriving DecidableEq, Repr

/-- A row of `api.evm_token_transfers` (keyed by `(tx_id, log_index)`). -/
structure TransferRow : Type where
  token_address : String
  from_address : String
  to_address : String
  value : String
deriving DecidableEq, Repr

/-- A row of `api.evm_tokens` (keyed by `address`). -/
structure TokenRow : Type where
  type : TokenType
  is_verified : Bool
deriving DecidableEq, Repr

/-- A row of `api.evm_contracts` (keyed by `address`); exactly the columns
the daemon's upsert writes. -/
structure ContractRow : Type where
  creator : String
  creation_tx : String
  creation_height : Option Int
  bytecode_hash : Option String
deriving DecidableEq, Repr

/-- One row of the `api.evm_pending_decode` view's underlying join (transaction
id, height, base64 raw bytes, and the gas-used event attribute when present).
The view itself filters this source, see `evm_pending_decode`. -/
structure PendingRow : Type where
  tx_id : String
  height : Int
  raw_bytes : String
  gas_used : Option Int
deriving DecidableEq, Repr

/-- The backing store.  `pending_source`, `transactions_raw` and
`transactions_main` belong to the upstream ingestion engine (read-only for
this pipeline); the five `evm_*` tables are the pipeline's output. -/
structure DB : Type where
  pending_source : List PendingRow
  transactions_raw : List (String × Option String)
  transactions_main : List (String × Int)
  evm_transactions : List (String × TxRow)
  evm_logs : List ((String × Nat) × LogRow)
  evm_token_transfers : List ((String × Nat) × TransferRow)
  evm_tokens : List (String × TokenRow)
  evm_contracts : List (String × ContractRow)
deriving DecidableEq, Repr

/-- The `api.evm_pending_decode` view: EVM transactions of the upstream join
for which `NOT EXISTS (SELECT 1 FROM api.evm_transactions ev WHERE ev.tx_id =
t.id)`.  Inserting any `evm_transactions` row for a key removes that key from
this derived set. -/
def evm_pending_decode (db : DB) : List PendingRow :=
  db.pending_source.filter (fun r => !(amem r.tx_id db.evm_transactions))

/-- Lowercasing as used for stored addresses (`String.prototype.toLowerCase`
on ASCII hex addresses). -/
def lowerStr (s : String) : String := s.map Char.toLower

/-! ## PostgreSQL statement semantics

The `...Pg` functions below model the statements the scripts issue together
with the schema's constraint enforcement: NOT NULL columns without defaults,
foreign keys (checked per statement, the conflict clauses never suppress
them), the `NUMERIC` input conversion of bound parameters, and view
updatability.  Any raise aborts the surrounding transaction. -/

/-- `INSERT INTO api.evm_transactions ... ON CONFLICT (tx_id) DO NOTHING`.
PostgreSQL checks the NOT NULL set of the proposed tuple before conflict
resolution, so a row missing `nonce`/`gas_limit`/`gas_price`/`value` raises
even when the key already exists.  (The `UNIQUE` index on `hash` and the
foreign key to `transactions_main` are not modelled: pending rows come from a
join on `transactions_main`, and distinct transactions have distinct raw
bytes and hence distinct keccak hashes.) -/
def insertTxPg (k : String) (v : TxRow) (db : DB) : Except PgError DB :=
  if evmTxNotNull v = false then Except.error PgError.notNullViolation
  else Except.ok
    { db with evm_transactions := insertIfAbsent k v db.evm_transactions }

/-- `INSERT INTO api.evm_logs ... ON CONFLICT (tx_id, log_index) DO NOTHING`.
A conflict skip inserts nothing and checks nothing further; an actually
inserted row must satisfy `tx_id REFERENCES api.evm_transactions(tx_id)` —
which fails whenever the parent transaction row has not been inserted yet. -/
def insertLogPg (txId : String) (log : DecodedLog) (db : DB) : Except PgError DB :=
  if amem (txId, log.log_index) db.evm_logs then Except.ok db
  else if amem txId db.evm_transactions then
    Except.ok { db with evm_logs :=
      (insertIfAbsent (txId, log.log_index)
        { address := log.address, topics := log.topics, data := log.data }
        db.evm_logs) }
  else Except.error PgError.fkViolation

/-- `INSERT INTO api.evm_token_transfers ... ON CONFLICT (tx_id, log_index)
DO NOTHING`.  The bound `value` parameter is converted to `NUMERIC` before
the statement executes, so a non-numeric string raises first; an inserted row
must further satisfy `token_address REFERENCES api.evm_tokens(address)` and
`(tx_id, log_index) REFERENCES api.evm_logs`. -/
def insertTransferPg (key : String × Nat) (r : TransferRow) (db : DB) :
    Except PgError DB :=
  if pgNumericOk r.value = false then Except.error PgError.invalidNumeric
  else if amem key db.evm_token_transfers then Except.ok db
  else if amem r.token_address db.evm_tokens = false then
    Except.error PgError.fkViolation
  else if amem key db.evm_logs = false then Except.error PgError.fkViolation
  else Except.ok
    { db with evm_token_transfers := insertIfAbsent key r db.evm_token_transfers }

/-- `DELETE FROM api.evm_pending_decode WHERE tx_id = $1`
(decode-evm-single.ts).  `evm_pending_decode` is a view with four joins,
`GROUP BY` and `MAX` aggregates (part_006) and the repository defines no
`INSTEAD OF` trigger or rule for it, so it is not updatable and PostgreSQL
rejects every DELETE against it. -/
def deletePendingPg : Except PgError Unit := Except.error PgError.nonUpdatableView

/-! ## The daemon's decode pipeline (`decode-evm-daemon.ts`) -/

namespace Daemon

/-- The `DecodedTx` record `decodeTransaction` of `decode-evm-daemon.ts`
builds once ethers parsing succeeded: envelope fields, content hash, and
status defaulted to success (`1`). -/
def decodedOf (c : Codec) (rawBase64 txId : String) (gasUsed : Option Int)
    (tx : TxFields) : DecodedTx :=
  { tx_id := txId
    hash := c.keccakOfRaw rawBase64
    from_ := tx.from_
    to_ := tx.to_
    nonce := tx.nonce
    gas_limit := tx.gasLimit
    gas_price := tx.gasPrice.getD 0
    max_fee_per_gas := tx.maxFeePerGas
    max_priority_fee_per_gas := tx.maxPriorityFeePerGas
    value := tx.value
    data := tx.data
    type := tx.txType.getD 0
    chain_id := tx.chainId
    gas_used := gasUsed
    status := 1
    function_name := none
    function_signature := none
    decoded_args := none
    contract_address := none }

/-- `decodeTransaction` of `decode-evm-daemon.ts`: parse the base64 envelope
via ethers and build `decodedOf`; `null` on parse failure. -/
def decodeTransaction (c : Codec) (rawBase64 txId : String) (gasUsed : Option Int) :
    Option DecodedTx :=
  match c.parseTx rawBase64 with
  | none => none
  | some tx => some (decodedOf c rawBase64 txId gasUsed tx)

/-- The placeholder written when `decodeTransaction` fails
(`INSERT INTO api.evm_transactions (tx_id, hash, "from", status) VALUES
($1, 'decode_failed_' + tx_id.slice(0,16), '', -1)`): every column the
statement omits is SQL `NULL`, except `type`, whose schema default is `0`. -/
def sentinelRow (txId : String) : TxRow :=
  { hash := "decode_failed_" ++ txId.take 16
    from_ := ""
    to_ := none
    nonce := none
    gas_limit := none
    gas_price := none
    max_fee_per_gas := none
    max_priority_fee_per_gas := none
    value := none
    data := none
    type := some 0
    chain_id := none
    gas_used := none
    status := -1
    function_name := none
    function_signature := none
    decoded_args := none
    contract_address := none }

/-- The parameters of the final 19-column `INSERT INTO api.evm_transactions`
(the single decoder's 17-column insert produces the same row because its
`DecodedTx` always carries `decoded_args = null` and `contract_address =
null`, which is also what its omitted columns default to). -/
def txRowOfDecoded (d : DecodedTx) : TxRow :=
  { hash := d.hash
    from_ := d.from_
    to_ := d.to_
    nonce := some d.nonce
    gas_limit := some d.gas_limit
    gas_price := some d.gas_price
    max_fee_per_gas := d.max_fee_per_gas
    max_priority_fee_per_gas := d.max_priority_fee_per_gas
    value := some d.value
    data := some d.data
    type := some d.type
    chain_id := d.chain_id
    gas_used := d.gas_used
    status := d.status
    function_name := d.function_name
    function_signature := d.function_signature
    decoded_args := d.decoded_args
    contract_address := d.contract_address }

/-- Staged `api.evm_token_transfers` insert performed for one log inside
`processBatch` (the ERC-20 / ERC-721 / ERC-1155 branch chain; the ERC-1155
branch only fires for a `TransferSingle` topic with at least 4 topics and
skips the insert when `AbiCoder.decode` throws).  This records the
parameters the statement binds; PostgreSQL in fact rejects the statement
(foreign key to the not-yet-registered token, non-numeric `value` bind — see
`insertTransferPg`/`transferInsertPg`), so no committed-state claim uses
this function. -/
def transferUpdate (c : Codec) (txId : String) (log : DecodedLog)
    (tt : List ((String × Nat) × TransferRow)) : List ((String × Nat) × TransferRow) :=
  match detectTokenType log with
  | some TokenType.ERC20 =>
    if 3 ≤ log.topics.length then
      insertIfAbsent (txId, log.log_index)
        { token_address := log.address
          from_address := "0x" ++ (log.topics.getD 1 "").drop 26
          to_address := "0x" ++ (log.topics.getD 2 "").drop 26
          value := if log.data = "" then "0x0" else log.data } tt
    else tt
  | some TokenType.ERC721 =>
    if 4 ≤ log.topics.length then
      insertIfAbsent (txId, log.log_index)
        { token_address := log.address
          from_address := "0x" ++ (log.topics.getD 1 "").drop 26
          to_address := "0x" ++ (log.topics.getD 2 "").drop 26
          value := log.topics.getD 3 "" } tt
    else tt
  | some TokenType.ERC1155 =>
    if log.topics.getD 0 "" = TRANSFER_SINGLE ∧ 4 ≤ log.topics.length then
      match c.abiDecodePair log.data with
      | some (idv, v) =>
        insertIfAbsent (txId, log.log_index)
          { token_address := log.address
            from_address := "0x" ++ (log.topics.getD 2 "").drop 26
            to_address := "0x" ++ (log.topics.getD 3 "").drop 26
            value := toString idv ++ ":" ++ toString v } tt
      | none => tt
    else tt
  | none => tt

/-- The `api.evm_tokens` upsert of the token-type branch chain:
ERC-20 inserts with `DO NOTHING`; ERC-721 inserts with
`DO UPDATE SET type = 'ERC721' WHERE evm_tokens.type = 'ERC20'`;
ERC-1155 (TransferSingle only) inserts with an unconditional
`DO UPDATE SET type = 'ERC1155'`. -/
def tokenBranchUpdate (log : DecodedLog) (tok : List (String × TokenRow)) :
    List (String × TokenRow) :=
  match detectTokenType log with
  | some TokenType.ERC20 =>
    if 3 ≤ log.topics.length then
      insertIfAbsent log.address { type := TokenType.ERC20, is_verified := false } tok
    else tok
  | some TokenType.ERC721 =>
    if 4 ≤ log.topics.length then
      upsertWith log.address { type := TokenType.ERC721, is_verified := false }
        (fun old => if old.type = TokenType.ERC20 then
                      { old with type := TokenType.ERC721 } else old) tok
    else tok
  | some TokenType.ERC1155 =>
    if log.topics.getD 0 "" = TRANSFER_SINGLE ∧ 4 ≤ log.topics.length then
      upsertWith log.address { type := TokenType.ERC1155, is_verified := false }
        (fun old => { old with type := TokenType.ERC1155 }) tok
    else tok
  | none => tok

/-- The trailing Approval handling: an Approval topic with at least 3 topics
registers the token with the ERC-20 default (`DO NOTHING`). -/
def tokenApprovalUpdate (log : DecodedLog) (tok : List (String × TokenRow)) :
    List (String × TokenRow) :=
  if log.topics.getD 0 "" = APPROVAL ∧ 3 ≤ log.topics.length then
    insertIfAbsent log.address { type := TokenType.ERC20, is_verified := false } tok
  else tok

/-- Staged processing of one decoded log inside `processBatch`: the raw-log
insert (`ON CONFLICT DO NOTHING`), then the transfer/token writes of the
detected branch, then the Approval registration.  The three statements
target three distinct tables, so the per-table decomposition above
reproduces the loop body's net effect on the staged rows.  PostgreSQL in
fact rejects the log insert (foreign key to the not-yet-inserted parent
`evm_transactions` row — see `insertLogPg`/`processLogPg`), so no
committed-state claim uses this function. -/
def processLog (c : Codec) (txId : String) (db : DB) (log : DecodedLog) : DB :=
  { db with
    evm_logs := insertIfAbsent (txId, log.log_index)
      { address := log.address, topics := log.topics, data := log.data } db.evm_logs
    evm_token_transfers := transferUpdate c txId log db.evm_token_transfers
    evm_tokens := tokenApprovalUpdate log (tokenBranchUpdate log db.evm_tokens) }

/-- The `SELECT data->'tx_response'->'data' FROM api.transactions_raw WHERE
id = $1` step: a usable response is present only when the row exists and the
JSON value is non-null and truthy (the empty string is falsy in JS). -/
def respDataOf (db : DB) (txId : String) : Option String :=
  match alookup txId db.transactions_raw with
  | some (some h) => if h = "" then none else some h
  | _ => none

/-- The response-enrichment block of `processBatch`: when the raw response is
available and `decodeTxResponse` succeeds, overwrite `gas_used`, derive
`status` from the VM error, and process every log; otherwise leave the
transaction and the store untouched. -/
def enrichWithResponse (c : Codec) (db : DB) (txId : String) (d : DecodedTx) :
    DecodedTx × DB :=
  match respDataOf db txId with
  | none => (d, db)
  | some h =>
    match c.parseResponse h with
    | none => (d, db)
    | some resp =>
      ({ d with gas_used := some resp.gasUsed
                status := if resp.vmError.isSome then 0 else 1 },
       resp.logs.foldl (processLog c txId) db)

/-- The height read for a contract deployment
(`heightQuery.rows[0]?.height || null`: a missing row and a `0` height both
degenerate to null). -/
def heightOf (db : DB) (txId : String) : Option Int :=
  match alookup txId db.transactions_main with
  | some h => if h = 0 then none else some h
  | none => none

/-- The `api.evm_contracts` row the deployment block writes. -/
def contractRowOf (c : Codec) (db : DB) (txId : String) (d : DecodedTx) : ContractRow :=
  { creator := lowerStr d.from_
    creation_tx := txId
    creation_height := heightOf db txId
    bytecode_hash := if d.data ≠ "" then some (c.keccakHex d.data) else none }

/-- The contract-deployment block of `processBatch`: fires when `to` is null,
`from` is truthy and the (response-resolved) status is success; derives the
address via `getCreateAddress({from, nonce})`, stamps it (lowercased) on the
transaction, and upserts `api.evm_contracts` with `DO UPDATE SET` on every
written column. -/
def contractStep (c : Codec) (db : DB) (txId : String) (d : DecodedTx) :
    DecodedTx × DB :=
  if d.to_ = none ∧ d.from_ ≠ "" ∧ d.status = 1 then
    ({ d with contract_address := some (lowerStr (c.getCreateAddress d.from_ d.nonce)) },
     { db with evm_contracts :=
         (upsertWith (lowerStr (c.getCreateAddress d.from_ d.nonce))
           (contractRowOf c db txId d) (fun _ => contractRowOf c db txId d)
           db.evm_contracts) })
  else (d, db)

/-- The signature-lookup block of `processBatch`: only for calls (`to` not
null) with at least a 4-byte selector in the call data; a resolved signature
fills `function_signature`, `function_name = signature.split('(')[0]` — the
prefix of the signature before the first parenthesis — and, when
`decodeFunctionCall` succeeds, `decoded_args`. -/
def sigStep (c : Codec) (cache : SigCache) (d : DecodedTx) : DecodedTx × SigCache :=
  if d.to_ ≠ none ∧ 10 ≤ d.data.length then
    let r := fetch4ByteSignature c.fetchSig cache (d.data.take 10)
    match r.1 with
    | some signature =>
      let d2 := { d with function_signature := some signature
                         function_name :=
                           some ((signature.toList.takeWhile (fun ch => ch != '(')).asString) }
      (match c.decodeArgs d.data signature with
       | some args => { d2 with decoded_args := some args }
       | none => d2, r.2.1)
    | none => (d, r.2.1)
  else (d, cache)

/-- The staged per-row body of `processBatch`: on envelope-decode failure
stage the sentinel placeholder (`ON CONFLICT DO NOTHING`); otherwise enrich
with the execution response (and its logs), run the contract-deployment
block, the signature lookup, and stage the final transaction insert
(`ON CONFLICT (tx_id) DO NOTHING`).  `processRowPg` runs the same statements
under the schema's constraint checks. -/
def processRow (c : Codec) (st : DB × SigCache) (row : PendingRow) : DB × SigCache :=
  match decodeTransaction c row.raw_bytes row.tx_id row.gas_used with
  | none =>
    ({ st.1 with evm_transactions :=
        insertIfAbsent row.tx_id (sentinelRow row.tx_id) st.1.evm_transactions }, st.2)
  | some d0 =>
    let p1 := enrichWithResponse c st.1 row.tx_id d0
    let p2 := contractStep c p1.2 row.tx_id p1.1
    let p3 := sigStep c st.2 p2.1
    ({ p2.2 with evm_transactions :=
        insertIfAbsent p3.1.tx_id (txRowOfDecoded p3.1) p2.2.evm_transactions }, p3.2)

/-- Staged `processBatch`: select up to `batchSize` rows of
`api.evm_pending_decode` (`LIMIT $1`), process them sequentially inside one
`BEGIN`/`COMMIT`, and report how many rows were selected.  The returned
store is the staged state — what `COMMIT` would make visible if PostgreSQL
accepted every statement; `processBatchPg` is the same batch under the
constraint checks. -/
def processBatch (c : Codec) (db : DB) (cache : SigCache) (batchSize : Nat) :
    DB × SigCache × Nat :=
  let batch := (evm_pending_decode db).take batchSize
  let st := batch.foldl (processRow c) (db, cache)
  (st.1, st.2, batch.length)

/-- One cycle of the daemon loop with an optional injected failure:
`crashAt = none` runs `processBatch` to `COMMIT`; `crashAt = some k` models an
unhandled exception thrown after `k` rows — `ROLLBACK` discards every staged
write of the batch (the store reverts to `db`), while the in-process
signature cache keeps whatever the first `k` rows added to it, and the error
propagates to the main loop (`Except.error`). -/
def runBatchCycleAt (c : Codec) (db : DB) (cache : SigCache) (batchSize : Nat)
    (crashAt : Option Nat) : DB × SigCache × Except Unit Nat :=
  match crashAt with
  | none =>
    let r := processBatch c db cache batchSize
    (r.1, r.2.1, Except.ok r.2.2)
  | some k =>
    let st := ((evm_pending_decode db).take batchSize).take k
      |>.foldl (processRow c) (db, cache)
    (db, st.2, Except.error ())

/-- The wait the `main` loop performs after one cycle:
`POLL_INTERVAL_MS` after every completed batch (empty, partial or full alike),
and `POLL_INTERVAL_MS * 2` when `processBatch` threw. -/
def loopDelay (pollIntervalMs : Nat) (outcome : Except Unit Nat) : Nat :=
  match outcome with
  | Except.ok _ => pollIntervalMs
  | Except.error _ => pollIntervalMs * 2

/-- Iterated daemon cycles: each entry gives the batch size and the optional
crash point of that cycle. -/
def runCycles (c : Codec) (st : DB × SigCache) (cycles : List (Nat × Option Nat)) :
    DB × SigCache :=
  cycles.foldl
    (fun s cy =>
      let r := runBatchCycleAt c s.1 s.2 cy.1 cy.2
      (r.1, r.2.1)) st

/-! ### The daemon pipeline under PostgreSQL's constraint checks

The staged functions above record the rows the statements attempt; the
functions below run the same statements through the `...Pg` semantics, so a
constraint violation aborts the whole batch (the surrounding transaction).
Claims about the committed store are settled against this layer. -/

/-- The transfer insert of the branch chain, checked.  For the ERC-1155
branch the TypeScript wraps the insert in `try { ... } catch {}`: a thrown
`AbiCoder.decode` failure is swallowed without any statement having run, but
a failed INSERT leaves the PostgreSQL transaction in the aborted state, so
the tokens upsert that follows unconditionally raises `25P02`; the net
effect — the batch aborts — is modelled by propagating the insert's error. -/
def transferInsertPg (c : Codec) (txId : String) (log : DecodedLog) (db : DB) :
    Except PgError DB :=
  match detectTokenType log with
  | some TokenType.ERC20 =>
    if 3 ≤ log.topics.length then
      insertTransferPg (txId, log.log_index)
        { token_address := log.address
          from_address := "0x" ++ (log.topics.getD 1 "").drop 26
          to_address := "0x" ++ (log.topics.getD 2 "").drop 26
          value := if log.data = "" then "0x0" else log.data } db
    else Except.ok db
  | some TokenType.ERC721 =>
    if 4 ≤ log.topics.length then
      insertTransferPg (txId, log.log_index)
        { token_address := log.address
          from_address := "0x" ++ (log.topics.getD 1 "").drop 26
          to_address := "0x" ++ (log.topics.getD 2 "").drop 26
          value := log.topics.getD 3 "" } db
    else Except.ok db
  | some TokenType.ERC1155 =>
    if log.topics.getD 0 "" = TRANSFER_SINGLE ∧ 4 ≤ log.topics.length then
      match c.abiDecodePair log.data with
      | some (idv, v) =>
        insertTransferPg (txId, log.log_index)
          { token_address := log.address
            from_address := "0x" ++ (log.topics.getD 2 "").drop 26
            to_address := "0x" ++ (log.topics.getD 3 "").drop 26
            value := toString idv ++ ":" ++ toString v } db
      | none => Except.ok db
    else Except.ok db
  | none => Except.ok db

/-- One log iteration, checked: the raw-log insert (whose foreign key to the
not-yet-inserted `evm_transactions` row fails whenever the parent is absent),
then the branch transfer insert, then the token upserts of the branch and the
Approval registration (which violate no constraints once reached). -/
def processLogPg (c : Codec) (txId : String) (db : DB) (log : DecodedLog) :
    Except PgError DB :=
  match insertLogPg txId log db with
  | Except.error e => Except.error e
  | Except.ok db1 =>
    match transferInsertPg c txId log db1 with
    | Except.error e => Except.error e
    | Except.ok db2 =>
      Except.ok { db2 with evm_tokens :=
        tokenApprovalUpdate log (tokenBranchUpdate log db2.evm_tokens) }

/-- The log loop, checked: the first raising statement aborts. -/
def processLogsPg (c : Codec) (txId : String) (db : DB) :
    List DecodedLog → Except PgError DB
  | [] => Except.ok db
  | log :: rest =>
    match processLogPg c txId db log with
    | Except.error e => Except.error e
    | Except.ok db2 => processLogsPg c txId db2 rest

/-- The response-enrichment block, checked. -/
def enrichWithResponsePg (c : Codec) (db : DB) (txId : String) (d : DecodedTx) :
    Except PgError (DecodedTx × DB) :=
  match respDataOf db txId with
  | none => Except.ok (d, db)
  | some h =>
    match c.parseResponse h with
    | none => Except.ok (d, db)
    | some resp =>
      match processLogsPg c txId db resp.logs with
      | Except.error e => Except.error e
      | Except.ok db2 =>
        Except.ok ({ d with gas_used := some resp.gasUsed
                            status := if resp.vmError.isSome then 0 else 1 }, db2)

/-- The per-row body of `processBatch`, checked: the sentinel insert for a
malformed envelope violates the NOT NULL set of `api.evm_transactions`
(see `evmTxNotNull`) and raises; the contract upsert and signature lookup
violate no constraints; the final insert of a decoded row passes the NOT NULL
set. -/
def processRowPg (c : Codec) (st : DB × SigCache) (row : PendingRow) :
    Except PgError (DB × SigCache) :=
  match decodeTransaction c row.raw_bytes row.tx_id row.gas_used with
  | none =>
    match insertTxPg row.tx_id (sentinelRow row.tx_id) st.1 with
    | Except.error e => Except.error e
    | Except.ok db2 => Except.ok (db2, st.2)
  | some d0 =>
    match enrichWithResponsePg c st.1 row.tx_id d0 with
    | Except.error e => Except.error e
    | Except.ok p1 =>
      let p2 := contractStep c p1.2 row.tx_id p1.1
      let p3 := sigStep c st.2 p2.1
      match insertTxPg p3.1.tx_id (txRowOfDecoded p3.1) p2.2 with
      | Except.error e => Except.error e
      | Except.ok db3 => Except.ok (db3, p3.2)

/-- The batch loop over the selected rows, checked. -/
def processRowsPg (c : Codec) (st : DB × SigCache) :
    List PendingRow → Except PgError (DB × SigCache)
  | [] => Except.ok st
  | r :: rest =>
    match processRowPg c st r with
    | Except.error e => Except.error e
    | Except.ok st2 => processRowsPg c st2 rest

/-- `processBatch`, checked: the whole batch inside one transaction. -/
def processBatchPg (c : Codec) (db : DB) (cache : SigCache) (batchSize : Nat) :
    Except PgError (DB × SigCache × Nat) :=
  let batch := (evm_pending_decode db).take batchSize
  match processRowsPg c (db, cache) batch with
  | Except.error e => Except.error e
  | Except.ok st => Except.ok (st.1, st.2, batch.length)

/-- One daemon cycle over the committed store: `COMMIT` makes the batch's
writes visible, any raise triggers `ROLLBACK` and the committed store is
unchanged (the in-process cache on the error path is covered by
`runBatchCycleAt`'s crash model). -/
def runBatchCyclePg (c : Codec) (db : DB) (cache : SigCache) (batchSize : Nat) :
    DB × Except PgError Nat :=
  match processBatchPg c db cache batchSize with
  | Except.ok r => (r.1, Except.ok r.2.2)
  | Except.error e => (db, Except.error e)

/-- The transaction's execution response, when present and decodable, carries
no logs.  This is the only case in which a batch row's statements all
succeed: the first log insert raises at the `evm_logs` foreign key. -/
def responseLogsEmpty (c : Codec) (db : DB) (txId : String) : Prop :=
  match respDataOf db txId with
  | none => True
  | some h =>
    match c.parseResponse h with
    | none => True
    | some resp => resp.logs = []

end Daemon

/-! ## The priority decoder (`decode-evm-single.ts`) -/

/-- The JSON result of `decodeSingleTransaction`. -/
structure SingleResult : Type where
  success : Bool
  message : String
deriving DecidableEq, Repr

namespace Single

/-- `decodeTransaction` of `decode-evm-single.ts`: same envelope parse and
content hash as the daemon, but signature resolution is a static four-entry
selector table consulted inline — it stores the raw 4-byte selector in
`function_signature` and the table's full signature (when known) in
`function_name`, performs no response decoding, no argument decoding and no
contract tracking. -/
def decodedOf (c : Codec) (rawBase64 txId : String) (gasUsed : Option Int)
    (tx : TxFields) : DecodedTx :=
  { tx_id := txId
    hash := c.keccakOfRaw rawBase64
    from_ := tx.from_
    to_ := tx.to_
    nonce := tx.nonce
    gas_limit := tx.gasLimit
    gas_price := tx.gasPrice.getD 0
    max_fee_per_gas := tx.maxFeePerGas
    max_priority_fee_per_gas := tx.maxPriorityFeePerGas
    value := tx.value
    data := tx.data
    type := tx.txType.getD 0
    chain_id := tx.chainId
    gas_used := gasUsed
    status := 1
    function_name :=
      if 10 ≤ tx.data.length then alookup (tx.data.take 10) knownSignatures
      else none
    function_signature :=
      if 10 ≤ tx.data.length then some (tx.data.take 10) else none
    decoded_args := none
    contract_address := none }

def decodeTransaction (c : Codec) (rawBase64 txId : String) (gasUsed : Option Int) :
    Option DecodedTx :=
  match c.parseTx rawBase64 with
  | none => none
  | some tx => some (decodedOf c rawBase64 txId gasUsed tx)

/-- `decodeSingleTransaction` of `decode-evm-single.ts` (decode-one):
look the key up in `api.evm_pending_decode`; if absent, report "already
decoded" when an `api.evm_transactions` row exists and "not found" otherwise,
in both cases without writing; if pending, decode the envelope — a parse
failure returns an error result without touching the store — and otherwise
run, inside `BEGIN`/`COMMIT`, the insert with `ON CONFLICT (tx_id) DO
NOTHING` followed by `DELETE FROM api.evm_pending_decode WHERE tx_id = $1`.
The DELETE targets a non-updatable view (see `deletePendingPg`), so it
raises, the `catch` issues `ROLLBACK` — discarding the just-staged insert —
and the call returns `success: false` with the error's message: the success
branch is unreachable and the priority path never writes. -/
def decodeSingleTransaction (c : Codec) (db : DB) (txId : String) :
    SingleResult × DB :=
  match (evm_pending_decode db).find? (fun r => r.tx_id == txId) with
  | some row =>
    (match decodeTransaction c row.raw_bytes row.tx_id row.gas_used with
     | none => ({ success := false, message := "Failed to decode transaction" }, db)
     | some d =>
       match insertTxPg d.tx_id (Daemon.txRowOfDecoded d) db with
       | Except.error e => ({ success := false, message := e.message }, db)
       | Except.ok db2 =>
         match deletePendingPg with
         | Except.error e => ({ success := false, message := e.message }, db)
         | Except.ok _ =>
           ({ success := true, message := "Transaction decoded successfully" }, db2))
  | none =>
    if amem txId db.evm_transactions then
      ({ success := true, message := "Transaction already decoded" }, db)
    else
      ({ success := false,
         message := "Transaction not found in pending queue or decoded transactions" }, db)

end Single


/-! ## Derived notions used by the specification claims -/

/-- The strength order of token classifications: the ERC-20 default is the
weakest inference, ERC-721 stronger, ERC-1155 strongest (an unconditional
overwrite in the code). -/
def typeRank : TokenType → Nat
  | TokenType.ERC20 => 0
  | TokenType.ERC721 => 1
  | TokenType.ERC1155 => 2

/-- The envelope-derived core of a `DecodedTx`: every field except the
signature-resolution and enrichment fields (`function_name`,
`function_signature`, `decoded_args`, `contract_address`). -/
structure CoreFields : Type where
  hash : String
  from_ : String
  to_ : Option String
  nonce : Nat
  gas_limit : Nat
  gas_price : Nat
  max_fee_per_gas : Option Nat
  max_priority_fee_per_gas : Option Nat
  value : Nat
  data : String
  type : Nat
  chain_id : Option Nat
  gas_used : Option Int
  status : Int
deriving DecidableEq, Repr

/-- Projection of a `DecodedTx` onto its envelope-derived core. -/
def coreOf (d : DecodedTx) : CoreFields :=
  { hash := d.hash
    from_ := d.from_
    to_ := d.to_
    nonce := d.nonce
    gas_limit := d.gas_limit
    gas_price := d.gas_price
    max_fee_per_gas := d.max_fee_per_gas
    max_priority_fee_per_gas := d.max_priority_fee_per_gas
    value := d.value
    data := d.data
    type := d.type
    chain_id := d.chain_id
    gas_used := d.gas_used
    status := d.status }

/-! ## Concrete fixtures (used by witnesses and counterexamples) -/

/-- A parsed call envelope: recipient present, data carrying the ERC-20
`transfer` selector. -/
def txGood : TxFields :=
  { from_ := "0xAAaa000000000000000000000000000000000001"
    to_ := some "0xBBbb000000000000000000000000000000000002"
    nonce := 5
    gasLimit := 21000
    gasPrice := some 7
    maxFeePerGas := none
    maxPriorityFeePerGas := none
    value := 42
    data := "0xa9059cbb00"
    txType := some 2
    chainId := some 262144 }

/-- A parsed contract-creation envelope: recipient absent. -/
def txCreate : TxFields :=
  { from_ := "0xAAaa000000000000000000000000000000000001"
    to_ := none
    nonce := 5
    gasLimit := 21000
    gasPrice := none
    maxFeePerGas := none
    maxPriorityFeePerGas := none
    value := 0
    data := "0x6001"
    txType := some 0
    chainId := none }

/-- A concrete codec: parses the two fixture envelopes, resolves the
`transfer` selector, and fails on everything else. -/
def cGood : Codec :=
  { parseTx := fun r =>
      if r = "rawGood" then some txGood
      else if r = "rawCreate" then some txCreate
      else none
    keccakOfRaw := fun r => "0xhash_" ++ r
    keccakHex := fun d => "0xkec_" ++ d
    parseResponse := fun _ => none
    getCreateAddress := fun f n => "0xCA_" ++ f.drop 38 ++ "_" ++ toString n
    abiDecodePair := fun _ => none
    fetchSig := fun s =>
      if s = "0xa9059cbb" then some "transfer(address,uint256)" else none
    decodeArgs := fun _ _ => none }

/-- A codec on which every library call fails: envelopes never parse and the
signature service never answers. -/
def cNone : Codec :=
  { parseTx := fun _ => none
    keccakOfRaw := fun _ => ""
    keccakHex := fun _ => ""
    parseResponse := fun _ => none
    getCreateAddress := fun _ _ => ""
    abiDecodePair := fun _ => none
    fetchSig := fun _ => none
    decodeArgs := fun _ _ => none }

/-- A pending call transaction. -/
def pendGood : PendingRow :=
  { tx_id := "t1", height := 10, raw_bytes := "rawGood", gas_used := none }

/-- A pending contract-creation transaction. -/
def pendCreate : PendingRow :=
  { tx_id := "t2", height := 11, raw_bytes := "rawCreate", gas_used := none }

/-- A pending transaction whose raw bytes cannot be parsed. -/
def pendBad : PendingRow :=
  { tx_id := "tbad", height := 12, raw_bytes := "xx", gas_used := none }

/-- The empty backing store. -/
def emptyDB : DB :=
  { pending_source := []
    transactions_raw := []
    transactions_main := []
    evm_transactions := []
    evm_logs := []
    evm_token_transfers := []
    evm_tokens := []
    evm_contracts := [] }

/-- Store with one pending call transaction. -/
def dbGood : DB :=
  { emptyDB with pending_source := [pendGood], transactions_main := [("t1", 10)] }

/-- Store with one pending contract-creation transaction. -/
def dbCreate : DB :=
  { emptyDB with pending_source := [pendCreate], transactions_main := [("t2", 11)] }

/-- Store with one pending malformed transaction. -/
def dbBad : DB :=
  { emptyDB with pending_source := [pendBad] }

/-- Store in which `t1` is already decoded (and hence no longer pending). -/
def dbDone : DB :=
  { emptyDB with pending_source := [pendGood]
                 evm_transactions := [("t1", Daemon.sentinelRow "t1")] }

/-- A Transfer log with 3 topics (ERC-20 shape). -/
def log20 : DecodedLog :=
  { log_index := 0
    address := "0xtokenA"
    topics := [TRANSFER, "topicFrom", "topicTo"]
    data := "0x05" }

/-- A Transfer log with 4 topics (ERC-721 shape), same emitting contract. -/
def log721 : DecodedLog :=
  { log_index := 1
    address := "0xtokenA"
    topics := [TRANSFER, "topicFrom", "topicTo", "tokenId7"]
    data := "0x" }

/-- A TransferSingle log (ERC-1155), same emitting contract. -/
def log1155 : DecodedLog :=
  { log_index := 2
    address := "0xtokenA"
    topics := [TRANSFER_SINGLE, "opr", "topicFrom", "topicTo"]
    data := "0xdd" }

/-- A decoded execution response carrying the 3-topic Transfer log. -/
def respLog20 : TxResponse := { logs := [log20], gasUsed := 21000, vmError := none }

/-- A decoded execution response carrying the 4-topic Transfer log. -/
def respLog721 : TxResponse := { logs := [log721], gasUsed := 21000, vmError := none }

/-- `cGood` extended with decodable execution responses. -/
def cResp : Codec :=
  { cGood with parseResponse := fun h =>
      if h = "resp20" then some respLog20
      else if h = "resp721" then some respLog721
      else none }

/-- Store with the pending call transaction `t1` and a raw response that
decodes to one 3-topic Transfer log. -/
def dbResp20 : DB := { dbGood with transactions_raw := [("t1", some "resp20")] }

/-- Store with the pending call transaction `t1` and a raw response that
decodes to the 4-topic Transfer log. -/
def dbResp721 : DB := { dbGood with transactions_raw := [("t1", some "resp721")] }

/-- Store with the pending creation transaction `t2` and a raw response that
decodes to one log. -/
def dbCreateResp : DB := { dbCreate with transactions_raw := [("t2", some "resp20")] }

/-! ## Association-list lemmas -/

theorem alookup_isSome_iff_mem {α β : Type} [DecidableEq α] (k : α) (m : List (α × β)) :
    (alookup k m).isSome = true ↔ k ∈ keysOf m := by
  induction m with
  | nil => simp [alookup, keysOf]
  | cons p t ih =>
    obtain ⟨a, b⟩ := p
    simp only [alookup, keysOf, List.map_cons, List.mem_cons]
    by_cases hak : a = k
    · subst hak
      simp
    · rw [if_neg hak]
      constructor
      · intro h
        exact Or.inr (ih.mp h)
      · intro h
        rcases h with h1 | h2
        · exact absurd h1.symm hak
        · exact ih.mpr h2

theorem amem_true_iff {α β : Type} [DecidableEq α] (k : α) (m : List (α × β)) :
    amem k m = true ↔ k ∈ keysOf m :=
  alookup_isSome_iff_mem k m

theorem amem_eq_false_iff {α β : Type} [DecidableEq α] (k : α) (m : List (α × β)) :
    amem k m = false ↔ alookup k m = none := by
  unfold amem
  cases alookup k m <;> simp

theorem alookup_insertIfAbsent_self {α β : Type} [DecidableEq α] {k : α} {v : β}
    {m : List (α × β)} (h : amem k m = false) :
    alookup k (insertIfAbsent k v m) = some v := by
  unfold insertIfAbsent
  rw [h]
  simp [alookup]

theorem alookup_insertIfAbsent_ne {α β : Type} [DecidableEq α] {a k : α} {v : β}
    {m : List (α × β)} (h : a ≠ k) :
    alookup a (insertIfAbsent k v m) = alookup a m := by
  unfold insertIfAbsent
  split
  · rfl
  · show alookup a ((k, v) :: m) = alookup a m
    simp only [alookup]
    rw [if_neg (fun h2 => h h2.symm)]

theorem alookup_insertIfAbsent_of_some {α β : Type} [DecidableEq α] {a k : α} {v w : β}
    {m : List (α × β)} (h : alookup a m = some v) :
    alookup a (insertIfAbsent k w m) = some v := by
  by_cases hak : a = k
  · subst hak
    unfold insertIfAbsent
    have hm : amem a m = true := by unfold amem; rw [h]; rfl
    rw [hm]
    simpa using h
  · rw [alookup_insertIfAbsent_ne hak]
    exact h

theorem amem_insertIfAbsent_mono {α β : Type} [DecidableEq α] {a k : α} {v : β}
    {m : List (α × β)} (h : amem a m = true) :
    amem a (insertIfAbsent k v m) = true := by
  unfold amem at h ⊢
  cases hm : alookup a m with
  | none => rw [hm] at h; simp at h
  | some w => rw [alookup_insertIfAbsent_of_some hm]; rfl

theorem upsertWith_lookup_self {α β : Type} [DecidableEq α] (k : α) (ins : β)
    (upd : β → β) (m : List (α × β)) :
    alookup k (upsertWith k ins upd m) =
      some (match alookup k m with | some old => upd old | none => ins) := by
  induction m with
  | nil => simp [upsertWith, alookup]
  | cons p t ih =>
    obtain ⟨a, b⟩ := p
    by_cases hak : a = k
    · subst hak
      simp [upsertWith, alookup]
    · simp [upsertWith, alookup, hak, ih]

theorem upsertWith_lookup_ne {α β : Type} [DecidableEq α] {a k : α} (ins : β)
    (upd : β → β) (m : List (α × β)) (h : a ≠ k) :
    alookup a (upsertWith k ins upd m) = alookup a m := by
  induction m with
  | nil =>
    simp only [upsertWith, alookup]
    rw [if_neg (fun h2 => h h2.symm)]
  | cons p t ih =>
    obtain ⟨x, b⟩ := p
    by_cases hxk : x = k
    · subst hxk
      simp only [upsertWith, if_pos rfl, alookup]
      rw [if_neg (fun h2 => h h2.symm), if_neg (fun h2 => h h2.symm)]
    · simp only [upsertWith, if_neg hxk, alookup]
      by_cases hxa : x = a
      · rw [if_pos hxa, if_pos hxa]
      · rw [if_neg hxa, if_neg hxa, ih]

theorem keysOf_upsertWith {α β : Type} [DecidableEq α] (k : α) (ins : β)
    (upd : β → β) (m : List (α × β)) :
    keysOf (upsertWith k ins upd m) =
      if amem k m = true then keysOf m else keysOf m ++ [k] := by
  induction m with
  | nil => simp [upsertWith, keysOf, amem, alookup]
  | cons p t ih =>
    obtain ⟨a, b⟩ := p
    by_cases hak : a = k
    · subst hak
      have hm : amem a ((a, b) :: t) = true := by simp [amem, alookup]
      rw [if_pos hm]
      simp [upsertWith, keysOf]
    · have hmem : amem k ((a, b) :: t) = amem k t := by
        simp [amem, alookup, hak]
      rw [hmem]
      simp only [upsertWith, if_neg hak, keysOf, List.map_cons]
      by_cases ht : amem k t = true
      · rw [if_pos ht]
        rw [if_pos ht] at ih
        exact congrArg (a :: ·) ih
      · rw [if_neg ht]
        rw [if_neg ht] at ih
        simpa using congrArg (a :: ·) ih

theorem nodupKeys_upsertWith {α β : Type} [DecidableEq α] {k : α} {ins : β}
    {upd : β → β} {m : List (α × β)} (h : nodupKeys m) :
    nodupKeys (upsertWith k ins upd m) := by
  unfold nodupKeys at h ⊢
  rw [keysOf_upsertWith]
  split
  · exact h
  · next hmem =>
    have hk : k ∉ keysOf m := by
      intro hcontra
      exact hmem ((amem_true_iff k m).mpr hcontra)
    simp [List.nodup_append, h, hk]

theorem nodupKeys_insertIfAbsent {α β : Type} [DecidableEq α] {k : α} {v : β}
    {m : List (α × β)} (h : nodupKeys m) :
    nodupKeys (insertIfAbsent k v m) := by
  unfold insertIfAbsent
  split
  · exact h
  · next hmem =>
    unfold nodupKeys keysOf
    simp only [List.map_cons]
    refine List.Nodup.cons ?_ h
    intro hcontra
    exact hmem ((amem_true_iff k m).mpr hcontra)

theorem keyCount_eq_one_of_nodup {α β : Type} [DecidableEq α] {k : α}
    {m : List (α × β)} (hn : nodupKeys m) (hk : amem k m = true) :
    keyCount k m = 1 := by
  unfold keyCount
  exact List.count_eq_one_of_mem hn ((amem_true_iff k m).mp hk)

/-! ## Structural lemmas about the daemon pipeline -/

namespace Daemon

theorem decodeTransaction_tx_id {c : Codec} {r t : String} {g : Option Int}
    {d : DecodedTx} (h : decodeTransaction c r t g = some d) : d.tx_id = t := by
  unfold decodeTransaction at h
  cases hp : c.parseTx r with
  | none => rw [hp] at h; exact absurd h (by simp)
  | some tx =>
    rw [hp] at h
    cases h
    rfl

theorem processLog_transactions (c : Codec) (txId : String) (db : DB) (log : DecodedLog) :
    (processLog c txId db log).evm_transactions = db.evm_transactions := rfl

theorem processLog_contracts (c : Codec) (txId : String) (db : DB) (log : DecodedLog) :
    (processLog c txId db log).evm_contracts = db.evm_contracts := rfl

theorem processLog_pending (c : Codec) (txId : String) (db : DB) (log : DecodedLog) :
    (processLog c txId db log).pending_source = db.pending_source := rfl

theorem foldLogs_transactions (c : Codec) (txId : String) (logs : List DecodedLog) (db : DB) :
    (logs.foldl (processLog c txId) db).evm_transactions = db.evm_transactions := by
  induction logs generalizing db with
  | nil => rfl
  | cons l ls ih => rw [List.foldl_cons, ih, processLog_transactions]

theorem foldLogs_pending (c : Codec) (txId : String) (logs : List DecodedLog) (db : DB) :
    (logs.foldl (processLog c txId) db).pending_source = db.pending_source := by
  induction logs generalizing db with
  | nil => rfl
  | cons l ls ih => rw [List.foldl_cons, ih, processLog_pending]

theorem enrich_fst_tx_id (c : Codec) (db : DB) (t : String) (d : DecodedTx) :
    (enrichWithResponse c db t d).1.tx_id = d.tx_id := by
  unfold enrichWithResponse
  cases respDataOf db t with
  | none => rfl
  | some h =>
    dsimp only
    cases c.parseResponse h with
    | none => rfl
    | some resp => rfl

theorem enrich_snd_transactions (c : Codec) (db : DB) (t : String) (d : DecodedTx) :
    (enrichWithResponse c db t d).2.evm_transactions = db.evm_transactions := by
  unfold enrichWithResponse
  cases respDataOf db t with
  | none => rfl
  | some h =>
    dsimp only
    cases c.parseResponse h with
    | none => rfl
    | some resp => exact foldLogs_transactions c t resp.logs db

theorem enrich_snd_pending (c : Codec) (db : DB) (t : String) (d : DecodedTx) :
    (enrichWithResponse c db t d).2.pending_source = db.pending_source := by
  unfold enrichWithResponse
  cases respDataOf db t with
  | none => rfl
  | some h =>
    dsimp only
    cases c.parseResponse h with
    | none => rfl
    | some resp => exact foldLogs_pending c t resp.logs db

theorem foldLogs_contracts (c : Codec) (txId : String) (logs : List DecodedLog) (db : DB) :
    (logs.foldl (processLog c txId) db).evm_contracts = db.evm_contracts := by
  induction logs generalizing db with
  | nil => rfl
  | cons l ls ih => rw [List.foldl_cons, ih, processLog_contracts]

theorem processLog_main (c : Codec) (txId : String) (db : DB) (log : DecodedLog) :
    (processLog c txId db log).transactions_main = db.transactions_main := rfl

theorem foldLogs_main (c : Codec) (txId : String) (logs : List DecodedLog) (db : DB) :
    (logs.foldl (processLog c txId) db).transactions_main = db.transactions_main := by
  induction logs generalizing db with
  | nil => rfl
  | cons l ls ih => rw [List.foldl_cons, ih, processLog_main]

theorem enrich_fst_to (c : Codec) (db : DB) (t : String) (d : DecodedTx) :
    (enrichWithResponse c db t d).1.to_ = d.to_ := by
  unfold enrichWithResponse
  cases respDataOf db t with
  | none => rfl
  | some h =>
    dsimp only
    cases c.parseResponse h with
    | none => rfl
    | some resp => rfl

theorem enrich_fst_from (c : Codec) (db : DB) (t : String) (d : DecodedTx) :
    (enrichWithResponse c db t d).1.from_ = d.from_ := by
  unfold enrichWithResponse
  cases respDataOf db t with
  | none => rfl
  | some h =>
    dsimp only
    cases c.parseResponse h with
    | none => rfl
    | some resp => rfl

theorem enrich_fst_nonce (c : Codec) (db : DB) (t : String) (d : DecodedTx) :
    (enrichWithResponse c db t d).1.nonce = d.nonce := by
  unfold enrichWithResponse
  cases respDataOf db t with
  | none => rfl
  | some h =>
    dsimp only
    cases c.parseResponse h with
    | none => rfl
    | some resp => rfl

theorem enrich_fst_data (c : Codec) (db : DB) (t : String) (d : DecodedTx) :
    (enrichWithResponse c db t d).1.data = d.data := by
  unfold enrichWithResponse
  cases respDataOf db t with
  | none => rfl
  | some h =>
    dsimp only
    cases c.parseResponse h with
    | none => rfl
    | some resp => rfl

theorem enrich_snd_contracts (c : Codec) (db : DB) (t : String) (d : DecodedTx) :
    (enrichWithResponse c db t d).2.evm_contracts = db.evm_contracts := by
  unfold enrichWithResponse
  cases respDataOf db t with
  | none => rfl
  | some h =>
    dsimp only
    cases c.parseResponse h with
    | none => rfl
    | some resp => exact foldLogs_contracts c t resp.logs db

theorem enrich_snd_main (c : Codec) (db : DB) (t : String) (d : DecodedTx) :
    (enrichWithResponse c db t d).2.transactions_main = db.transactions_main := by
  unfold enrichWithResponse
  cases respDataOf db t with
  | none => rfl
  | some h =>
    dsimp only
    cases c.parseResponse h with
    | none => rfl
    | some resp => exact foldLogs_main c t resp.logs db

theorem contract_fst_tx_id (c : Codec) (db : DB) (t : String) (d : DecodedTx) :
    (contractStep c db t d).1.tx_id = d.tx_id := by
  unfold contractStep
  split <;> rfl

theorem contract_snd_transactions (c : Codec) (db : DB) (t : String) (d : DecodedTx) :
    (contractStep c db t d).2.evm_transactions = db.evm_transactions := by
  unfold contractStep
  split <;> rfl

theorem contract_snd_pending (c : Codec) (db : DB) (t : String) (d : DecodedTx) :
    (contractStep c db t d).2.pending_source = db.pending_source := by
  unfold contractStep
  split <;> rfl

theorem sig_fst_tx_id (c : Codec) (cache : SigCache) (d : DecodedTx) :
    (sigStep c cache d).1.tx_id = d.tx_id := by
  unfold sigStep
  split
  · rcases hfe : fetch4ByteSignature c.fetchSig cache (d.data.take 10) with ⟨o, c2, b⟩
    dsimp only
    cases o with
    | none => rfl
    | some signature =>
      dsimp only
      cases c.decodeArgs d.data signature with
      | none => rfl
      | some args => rfl
  · rfl

/-- `processRow` changes `evm_transactions` exactly by one
`ON CONFLICT DO NOTHING` insert keyed by the row's transaction id. -/
theorem processRow_transactions_decomp (c : Codec) (st : DB × SigCache) (row : PendingRow) :
    ∃ v, (processRow c st row).1.evm_transactions =
      insertIfAbsent row.tx_id v st.1.evm_transactions := by
  unfold processRow
  cases hd : decodeTransaction c row.raw_bytes row.tx_id row.gas_used with
  | none => exact ⟨sentinelRow row.tx_id, rfl⟩
  | some d0 =>
    refine ⟨Daemon.txRowOfDecoded (sigStep c st.2
      (contractStep c (enrichWithResponse c st.1 row.tx_id d0).2 row.tx_id
        (enrichWithResponse c st.1 row.tx_id d0).1).1).1, ?_⟩
    have htx : (sigStep c st.2
        (contractStep c (enrichWithResponse c st.1 row.tx_id d0).2 row.tx_id
          (enrichWithResponse c st.1 row.tx_id d0).1).1).1.tx_id = row.tx_id := by
      rw [sig_fst_tx_id, contract_fst_tx_id, enrich_fst_tx_id]
      exact decodeTransaction_tx_id hd
    simp only [htx, contract_snd_transactions, enrich_snd_transactions]

theorem processRow_pending (c : Codec) (st : DB × SigCache) (row : PendingRow) :
    (processRow c st row).1.pending_source = st.1.pending_source := by
  unfold processRow
  cases hd : decodeTransaction c row.raw_bytes row.tx_id row.gas_used with
  | none => rfl
  | some d0 =>
    show (contractStep c (enrichWithResponse c st.1 row.tx_id d0).2 row.tx_id
      (enrichWithResponse c st.1 row.tx_id d0).1).2.pending_source = st.1.pending_source
    rw [contract_snd_pending, enrich_snd_pending]

theorem processRow_sentinel (c : Codec) (st : DB × SigCache) (row : PendingRow)
    (h : decodeTransaction c row.raw_bytes row.tx_id row.gas_used = none) :
    (processRow c st row).1.evm_transactions =
      insertIfAbsent row.tx_id (sentinelRow row.tx_id) st.1.evm_transactions := by
  unfold processRow
  rw [h]

theorem foldRows_pending (c : Codec) (rows : List PendingRow) (st : DB × SigCache) :
    ((rows.foldl (processRow c) st).1).pending_source = st.1.pending_source := by
  induction rows generalizing st with
  | nil => rfl
  | cons r rs ih => rw [List.foldl_cons, ih, processRow_pending]

theorem foldRows_preserve_some (c : Codec) (rows : List PendingRow) (st : DB × SigCache)
    {a : String} {v : TxRow} (h : alookup a st.1.evm_transactions = some v) :
    alookup a ((rows.foldl (processRow c) st).1).evm_transactions = some v := by
  induction rows generalizing st with
  | nil => exact h
  | cons r rs ih =>
    rw [List.foldl_cons]
    refine ih _ ?_
    obtain ⟨w, hw⟩ := processRow_transactions_decomp c st r
    rw [hw]
    exact alookup_insertIfAbsent_of_some h

theorem foldRows_preserve_none (c : Codec) (rows : List PendingRow) (st : DB × SigCache)
    {a : String} (hd : ∀ r ∈ rows, r.tx_id ≠ a)
    (h : alookup a st.1.evm_transactions = none) :
    alookup a ((rows.foldl (processRow c) st).1).evm_transactions = none := by
  induction rows generalizing st with
  | nil => exact h
  | cons r rs ih =>
    rw [List.foldl_cons]
    apply ih
    · exact fun x hx => hd x (List.mem_cons_of_mem r hx)
    · obtain ⟨w, hw⟩ := processRow_transactions_decomp c st r
      rw [hw]
      rw [alookup_insertIfAbsent_ne (fun h2 => hd r (List.mem_cons_self r rs) h2.symm)]
      exact h

theorem foldRows_amem_mono (c : Codec) (rows : List PendingRow) (st : DB × SigCache)
    {a : String} (h : amem a st.1.evm_transactions = true) :
    amem a ((rows.foldl (processRow c) st).1).evm_transactions = true := by
  unfold amem at h
  cases hm : alookup a st.1.evm_transactions with
  | none => rw [hm] at h; simp at h
  | some v =>
    unfold amem
    rw [foldRows_preserve_some c rows st hm]
    rfl

theorem runBatchCycleAt_pending_source (c : Codec) (db : DB) (cache : SigCache)
    (n : Nat) (crashAt : Option Nat) :
    (runBatchCycleAt c db cache n crashAt).1.pending_source = db.pending_source := by
  unfold runBatchCycleAt processBatch
  cases crashAt with
  | none => exact foldRows_pending c _ _
  | some k => rfl

theorem runBatchCycleAt_amem_mono (c : Codec) (db : DB) (cache : SigCache)
    (n : Nat) (crashAt : Option Nat) {a : String}
    (h : amem a db.evm_transactions = true) :
    amem a (runBatchCycleAt c db cache n crashAt).1.evm_transactions = true := by
  unfold runBatchCycleAt processBatch
  cases crashAt with
  | none => exact foldRows_amem_mono c _ _ h
  | some k => exact h

theorem runCycles_amem_mono (c : Codec) (st : DB × SigCache)
    (cycles : List (Nat × Option Nat)) {a : String}
    (h : amem a st.1.evm_transactions = true) :
    amem a (runCycles c st cycles).1.evm_transactions = true := by
  induction cycles generalizing st with
  | nil => exact h
  | cons cy cys ih =>
    unfold runCycles
    rw [List.foldl_cons]
    exact ih _ (runBatchCycleAt_amem_mono c st.1 st.2 cy.1 cy.2 h)

end Daemon

/-- A key with an `evm_transactions` row is excluded from the
`evm_pending_decode` view. -/
theorem not_mem_pending_of_amem {db : DB} {a : String}
    (h : amem a db.evm_transactions = true) :
    a ∉ (evm_pending_decode db).map PendingRow.tx_id := by
  intro hmem
  unfold evm_pending_decode at hmem
  obtain ⟨r, hr, hra⟩ := List.mem_map.mp hmem
  have := (List.mem_filter.mp hr).2
  rw [hra] at this
  rw [h] at this
  simp at this


/-! ## Claim-support lemmas -/

theorem amem_insertIfAbsent_self {α β : Type} [DecidableEq α] (k : α) (v : β)
    (m : List (α × β)) : amem k (insertIfAbsent k v m) = true := by
  cases hm : amem k m with
  | true => exact amem_insertIfAbsent_mono hm
  | false =>
    unfold amem
    rw [alookup_insertIfAbsent_self hm]
    rfl

theorem detectTokenType_transfer (log : DecodedLog)
    (h0 : log.topics.getD 0 "" = TRANSFER) :
    detectTokenType log =
      (if log.topics.length = 4 then some TokenType.ERC721 else some TokenType.ERC20) := by
  unfold detectTokenType
  rw [h0]
  dsimp only
  rw [if_neg (by decide : ¬(TRANSFER = TRANSFER_SINGLE ∨ TRANSFER = TRANSFER_BATCH))]
  rw [if_pos rfl]

namespace Daemon

theorem decodeTransaction_eq_some (c : Codec) (r t : String) (g : Option Int)
    (tx : TxFields) (hp : c.parseTx r = some tx) :
    decodeTransaction c r t g = some (decodedOf c r t g tx) := by
  unfold decodeTransaction
  rw [hp]

theorem decodeTransaction_eq_none (c : Codec) (r t : String) (g : Option Int)
    (hp : c.parseTx r = none) :
    decodeTransaction c r t g = none := by
  unfold decodeTransaction
  rw [hp]

theorem respDataOf_none {db : DB} {t : String}
    (h : alookup t db.transactions_raw = none) : respDataOf db t = none := by
  unfold respDataOf
  rw [h]

theorem enrich_of_no_resp (c : Codec) (db : DB) (t : String) (d : DecodedTx)
    (h : respDataOf db t = none) : enrichWithResponse c db t d = (d, db) := by
  unfold enrichWithResponse
  rw [h]

theorem processRow_contracts_of (c : Codec) (db : DB) (cache : SigCache)
    (row : PendingRow) (d0 : DecodedTx)
    (hd : decodeTransaction c row.raw_bytes row.tx_id row.gas_used = some d0) :
    (processRow c (db, cache) row).1.evm_contracts =
      (contractStep c (enrichWithResponse c db row.tx_id d0).2 row.tx_id
        (enrichWithResponse c db row.tx_id d0).1).2.evm_contracts := by
  unfold processRow
  rw [hd]

theorem contractStep_contracts (c : Codec) (db : DB) (t : String) (d : DecodedTx)
    (hto : d.to_ = none) (hfrom : d.from_ ≠ "") (hst : d.status = 1) :
    (contractStep c db t d).2.evm_contracts =
      upsertWith (lowerStr (c.getCreateAddress d.from_ d.nonce))
        (contractRowOf c db t d) (fun _ => contractRowOf c db t d)
        db.evm_contracts := by
  unfold contractStep
  rw [if_pos ⟨hto, hfrom, hst⟩]

theorem processLog_transfers (c : Codec) (txId : String) (db : DB) (log : DecodedLog) :
    (processLog c txId db log).evm_token_transfers =
      transferUpdate c txId log db.evm_token_transfers := rfl

theorem processLog_tokens (c : Codec) (txId : String) (db : DB) (log : DecodedLog) :
    (processLog c txId db log).evm_tokens =
      tokenApprovalUpdate log (tokenBranchUpdate log db.evm_tokens) := rfl

theorem typeRank_le_two (t : TokenType) : typeRank t ≤ 2 := by
  cases t <;> decide

/-- Existing token rows survive `tokenBranchUpdate` and their type rank never
decreases. -/
theorem tokenBranch_mono (log : DecodedLog) (tok : List (String × TokenRow))
    (addr : String) (t : TokenRow) (h : alookup addr tok = some t) :
    ∃ t2, alookup addr (tokenBranchUpdate log tok) = some t2 ∧
      typeRank t.type ≤ typeRank t2.type := by
  unfold tokenBranchUpdate
  cases detectTokenType log with
  | none => exact ⟨t, h, Nat.le_refl _⟩
  | some tt =>
    cases tt with
    | ERC20 =>
      dsimp only
      split
      · exact ⟨t, alookup_insertIfAbsent_of_some h, Nat.le_refl _⟩
      · exact ⟨t, h, Nat.le_refl _⟩
    | ERC721 =>
      dsimp only
      split
      · by_cases hak : addr = log.address
        · subst hak
          rw [upsertWith_lookup_self, h]
          refine ⟨_, rfl, ?_⟩
          dsimp only
          split
          · next hEq =>
              rw [hEq]
              exact (by decide : typeRank TokenType.ERC20 ≤ typeRank TokenType.ERC721)
          · exact Nat.le_refl _
        · rw [upsertWith_lookup_ne _ _ _ hak]
          exact ⟨t, h, Nat.le_refl _⟩
      · exact ⟨t, h, Nat.le_refl _⟩
    | ERC1155 =>
      dsimp only
      split
      · by_cases hak : addr = log.address
        · subst hak
          rw [upsertWith_lookup_self, h]
          exact ⟨_, rfl, typeRank_le_two t.type⟩
        · rw [upsertWith_lookup_ne _ _ _ hak]
          exact ⟨t, h, Nat.le_refl _⟩
      · exact ⟨t, h, Nat.le_refl _⟩

/-- Existing token rows survive `tokenApprovalUpdate` unchanged. -/
theorem tokenApproval_preserve (log : DecodedLog) (tok : List (String × TokenRow))
    (addr : String) (t : TokenRow) (h : alookup addr tok = some t) :
    alookup addr (tokenApprovalUpdate log tok) = some t := by
  unfold tokenApprovalUpdate
  split
  · exact alookup_insertIfAbsent_of_some h
  · exact h

theorem processLog_token_mono (c : Codec) (txId : String) (db : DB) (log : DecodedLog)
    (addr : String) (t : TokenRow) (h : alookup addr db.evm_tokens = some t) :
    ∃ t2, alookup addr (processLog c txId db log).evm_tokens = some t2 ∧
      typeRank t.type ≤ typeRank t2.type := by
  rw [processLog_tokens]
  obtain ⟨t1, h1, hr1⟩ := tokenBranch_mono log db.evm_tokens addr t h
  exact ⟨t1, tokenApproval_preserve log _ addr t1 h1, hr1⟩

theorem foldLogs_token_mono (c : Codec) (txId : String) (logs : List DecodedLog)
    (db : DB) (addr : String) (t : TokenRow)
    (h : alookup addr db.evm_tokens = some t) :
    ∃ t2, alookup addr ((logs.foldl (processLog c txId) db)).evm_tokens = some t2 ∧
      typeRank t.type ≤ typeRank t2.type := by
  induction logs generalizing db t with
  | nil => exact ⟨t, h, Nat.le_refl _⟩
  | cons l ls ih =>
    rw [List.foldl_cons]
    obtain ⟨t1, h1, hr1⟩ := processLog_token_mono c txId db l addr t h
    obtain ⟨t2, h2, hr2⟩ := ih (processLog c txId db l) t1 h1
    exact ⟨t2, h2, Nat.le_trans hr1 hr2⟩

theorem tokenBranch_nodup (log : DecodedLog) (tok : List (String × TokenRow))
    (h : nodupKeys tok) : nodupKeys (tokenBranchUpdate log tok) := by
  unfold tokenBranchUpdate
  cases detectTokenType log with
  | none => exact h
  | some tt =>
    cases tt <;> dsimp only <;> split
    · exact nodupKeys_insertIfAbsent h
    · exact h
    · exact nodupKeys_upsertWith h
    · exact h
    · exact nodupKeys_upsertWith h
    · exact h

theorem tokenApproval_nodup (log : DecodedLog) (tok : List (String × TokenRow))
    (h : nodupKeys tok) : nodupKeys (tokenApprovalUpdate log tok) := by
  unfold tokenApprovalUpdate
  split
  · exact nodupKeys_insertIfAbsent h
  · exact h

theorem foldLogs_token_nodup (c : Codec) (txId : String) (logs : List DecodedLog)
    (db : DB) (h : nodupKeys db.evm_tokens) :
    nodupKeys ((logs.foldl (processLog c txId) db)).evm_tokens := by
  induction logs generalizing db with
  | nil => exact h
  | cons l ls ih =>
    rw [List.foldl_cons]
    exact ih _ (by
      rw [processLog_tokens]
      exact tokenApproval_nodup l _ (tokenBranch_nodup l _ h))

end Daemon

namespace Single

theorem singleDecode_tx_id {c : Codec} {r t : String} {g : Option Int}
    {d : DecodedTx} (h : decodeTransaction c r t g = some d) : d.tx_id = t := by
  unfold decodeTransaction at h
  cases hp : c.parseTx r with
  | none => rw [hp] at h; exact absurd h (by simp)
  | some tx =>
    rw [hp] at h
    cases h
    rfl

end Single

/-- With no decodable response logs, the checked enrichment equals the staged
one wrapped in success: no log statement runs, so nothing can raise. -/
theorem enrichPg_ok_of_no_logs (c : Codec) (db : DB) (t : String) (d : DecodedTx)
    (hlogs : Daemon.responseLogsEmpty c db t) :
    Daemon.enrichWithResponsePg c db t d =
      Except.ok (Daemon.enrichWithResponse c db t d) := by
  unfold Daemon.responseLogsEmpty at hlogs
  unfold Daemon.enrichWithResponsePg Daemon.enrichWithResponse
  cases hr : Daemon.respDataOf db t with
  | none => rfl
  | some h =>
    rw [hr] at hlogs
    dsimp only at hlogs ⊢
    cases hp : c.parseResponse h with
    | none => rfl
    | some resp =>
      rw [hp] at hlogs
      dsimp only at hlogs ⊢
      rw [hlogs]
      rfl

/-- A batch row whose envelope parses and whose response carries no logs
commits: the checked processing succeeds and returns exactly the staged
result (the contract upsert and the final insert violate no constraints). -/
theorem processRowPg_ok_of_no_logs (c : Codec) (st : DB × SigCache)
    (row : PendingRow) (tx : TxFields)
    (hparse : c.parseTx row.raw_bytes = some tx)
    (hlogs : Daemon.responseLogsEmpty c st.1 row.tx_id) :
    Daemon.processRowPg c st row = Except.ok (Daemon.processRow c st row) := by
  have hd := Daemon.decodeTransaction_eq_some c row.raw_bytes row.tx_id
    row.gas_used tx hparse
  unfold Daemon.processRowPg Daemon.processRow
  rw [hd]
  dsimp only
  rw [enrichPg_ok_of_no_logs c st.1 row.tx_id _ hlogs]
  dsimp only
  rfl

/-! ## Claim theorems -/

/-- C4: for every transaction key already persisted by the Batch Scheduler
(i.e. with an `api.evm_transactions` row), a subsequent `decode-one(key)` on
the Priority Decoder is a no-op: the pending view no longer contains the key,
the decoder answers "Transaction already decoded" with success, and the store
is returned unchanged — no duplicate or conflicting row, no mutation, no
error. -/
theorem evm_c4_decode_one_noop (c : Codec) (db : DB) (txId : String)
    (h : amem txId db.evm_transactions = true) :
    Single.decodeSingleTransaction c db txId =
      ({ success := true, message := "Transaction already decoded" }, db) := by
  have hfind : (evm_pending_decode db).find? (fun r => r.tx_id == txId) = none := by
    apply List.find?_eq_none.mpr
    intro r hr
    have hfilter := (List.mem_filter.mp hr).2
    intro hbeq
    have hreq : r.tx_id = txId := by simpa using hbeq
    rw [hreq, h] at hfilter
    simp at hfilter
  unfold Single.decodeSingleTransaction
  rw [hfind]
  dsimp only
  rw [if_pos h]

/-- C4 witness: in a store where `t1` is already decoded, decode-one(`t1`)
returns success without writing. -/
theorem evm_c4_witness :
    amem "t1" dbDone.evm_transactions = true ∧
    Single.decodeSingleTransaction cGood dbDone "t1" =
      ({ success := true, message := "Transaction already decoded" }, dbDone) :=
  ⟨by decide, evm_c4_decode_one_noop cGood dbDone "t1" (by decide)⟩

/-- C10 (implicit): on the Priority Decoder path, a transaction whose raw
envelope bytes fail to decode produces no write at all — no row, no sentinel:
the call returns a failure result with the store unchanged, and the
transaction is still in the pending view. -/
theorem evm_c10_priority_parse_failure (c : Codec) (db : DB) (txId : String)
    (row : PendingRow)
    (hfind : (evm_pending_decode db).find? (fun r => r.tx_id == txId) = some row)
    (hparse : c.parseTx row.raw_bytes = none) :
    Single.decodeSingleTransaction c db txId =
      ({ success := false, message := "Failed to decode transaction" }, db) ∧
    row ∈ evm_pending_decode db := by
  constructor
  · unfold Single.decodeSingleTransaction
    rw [hfind]
    dsimp only
    have hdec : Single.decodeTransaction c row.raw_bytes row.tx_id row.gas_used = none := by
      unfold Single.decodeTransaction
      rw [hparse]
    rw [hdec]
  · exact List.mem_of_find?_eq_some hfind

/-- C10 witness: the malformed pending transaction `tbad` is rejected by
decode-one without any write. -/
theorem evm_c10_witness :
    (evm_pending_decode dbBad).find? (fun r => r.tx_id == "tbad") = some pendBad ∧
    cGood.parseTx pendBad.raw_bytes = none ∧
    (Single.decodeSingleTransaction cGood dbBad "tbad" =
      ({ success := false, message := "Failed to decode transaction" }, dbBad) ∧
     pendBad ∈ evm_pending_decode dbBad) :=
  ⟨by decide, by decide,
   evm_c10_priority_parse_failure cGood dbBad "tbad" pendBad (by decide) (by decide)⟩

/-- C2: when an unhandled exception aborts a batch (crash injected after `k`
rows), the whole batch is rolled back — the store is exactly the pre-batch
store, so no partial enrichment is visible and every selected transaction is
still in the pending view — the cycle reports an error, and the loop's
backoff is `POLL_INTERVAL_MS * 2`, strictly longer than the steady-state poll
interval. -/
theorem evm_c2_batch_rollback (c : Codec) (db : DB) (cache : SigCache)
    (n k p : Nat) (hp : 0 < p) :
    (Daemon.runBatchCycleAt c db cache n (some k)).1 = db ∧
    (∀ row ∈ (evm_pending_decode db).take n,
      row ∈ evm_pending_decode (Daemon.runBatchCycleAt c db cache n (some k)).1) ∧
    (Daemon.runBatchCycleAt c db cache n (some k)).2.2 = Except.error () ∧
    Daemon.loopDelay p (Daemon.runBatchCycleAt c db cache n (some k)).2.2 = p * 2 ∧
    p < Daemon.loopDelay p (Daemon.runBatchCycleAt c db cache n (some k)).2.2 := by
  refine ⟨rfl, ?_, rfl, rfl, ?_⟩
  · intro row hrow
    exact List.take_subset n _ hrow
  · show p < p * 2
    omega

/-- C2 witness: a crash at the start of a batch over the one-transaction
store leaves it untouched and backs off for 10000ms against a 5000ms poll
interval. -/
theorem evm_c2_witness :
    0 < 5000 ∧
    ((Daemon.runBatchCycleAt cGood dbGood [] 100 (some 0)).1 = dbGood ∧
     (∀ row ∈ (evm_pending_decode dbGood).take 100,
       row ∈ evm_pending_decode (Daemon.runBatchCycleAt cGood dbGood [] 100 (some 0)).1) ∧
     (Daemon.runBatchCycleAt cGood dbGood [] 100 (some 0)).2.2 = Except.error () ∧
     Daemon.loopDelay 5000 (Daemon.runBatchCycleAt cGood dbGood [] 100 (some 0)).2.2 = 5000 * 2 ∧
     5000 < Daemon.loopDelay 5000 (Daemon.runBatchCycleAt cGood dbGood [] 100 (some 0)).2.2) :=
  ⟨by decide, evm_c2_batch_rollback cGood dbGood [] 100 0 5000 (by decide)⟩

/-- C7 counterexample: with a signature service that is failing (or finds no
match), the first lookup for a selector completes, is NOT cached, and the very
next lookup for the same selector contacts the external service again (the
`true` flag) — refuting the claim that after the first completed lookup the
service is never contacted again for that selector. -/
theorem evm_c7_counterexample :
    fetch4ByteSignature cNone.fetchSig [] "0xdeadbeef" = (none, [], true) ∧
    fetch4ByteSignature cNone.fetchSig
      (fetch4ByteSignature cNone.fetchSig [] "0xdeadbeef").2.1 "0xdeadbeef" =
      (none, [], true) :=
  ⟨rfl, rfl⟩

/-- C7 as amended: only a successful lookup is cached.  After a cache miss
with a successful network response, the selector maps to its signature in the
cache and a repeated lookup answers from the cache without contacting the
service; after a cache miss with a failed or empty response the result is
null and the cache is unchanged, so nothing prevents a retry on the next
transaction with that selector. -/
theorem evm_c7_sig_cache (net : String → Option String) (cache : SigCache)
    (sel sig : String) :
    (alookup sel cache = none → net sel = some sig →
      fetch4ByteSignature net cache sel = (some sig, (sel, sig) :: cache, true) ∧
      fetch4ByteSignature net ((sel, sig) :: cache) sel =
        (some sig, (sel, sig) :: cache, false)) ∧
    (alookup sel cache = none → net sel = none →
      fetch4ByteSignature net cache sel = (none, cache, true)) := by
  constructor
  · intro hmiss hnet
    constructor
    · unfold fetch4ByteSignature
      rw [hmiss, hnet]
    · unfold fetch4ByteSignature
      simp [alookup]
  · intro hmiss hnet
    unfold fetch4ByteSignature
    rw [hmiss, hnet]

/-- C7 witness: a successful `transfer` lookup populates the cache and the
second lookup is served from it. -/
theorem evm_c7_witness :
    fetch4ByteSignature cGood.fetchSig [] "0xa9059cbb" =
      (some "transfer(address,uint256)",
       [("0xa9059cbb", "transfer(address,uint256)")], true) ∧
    fetch4ByteSignature cGood.fetchSig
      [("0xa9059cbb", "transfer(address,uint256)")] "0xa9059cbb" =
      (some "transfer(address,uint256)",
       [("0xa9059cbb", "transfer(address,uint256)")], false) :=
  (evm_c7_sig_cache cGood.fetchSig [] "0xa9059cbb" "transfer(address,uint256)").1
    rfl rfl

/-- C8 counterexample: a full batch (size 1 against a batch cap of 1) is
followed by a wait of the full poll interval (5000ms), not by an immediate
next batch — refuting the claim that a full batch loops again without
waiting. -/
theorem evm_c8_counterexample :
    (Daemon.runBatchCycleAt cGood dbGood [] 1 none).2.2 = Except.ok 1 ∧
    Daemon.loopDelay 5000 (Daemon.runBatchCycleAt cGood dbGood [] 1 none).2.2 = 5000 ∧
    ¬ Daemon.loopDelay 5000 (Daemon.runBatchCycleAt cGood dbGood [] 1 none).2.2 < 5000 := by
  refine ⟨rfl, rfl, ?_⟩
  show ¬ (5000 : Nat) < 5000
  exact Nat.lt_irrefl 5000

/-- C8 as amended: after every completed batch cycle — empty, partial or full
alike — the loop waits exactly the steady-state poll interval before the next
poll; only a cycle that threw waits longer (twice the poll interval).  A full
batch does not trigger an immediate next batch. -/
theorem evm_c8_poll_wait (c : Codec) (db : DB) (cache : SigCache) (n p : Nat)
    (k : Nat) :
    Daemon.loopDelay p (Daemon.runBatchCycleAt c db cache n none).2.2 = p ∧
    Daemon.loopDelay p (Daemon.runBatchCycleAt c db cache n (some k)).2.2 = p * 2 :=
  ⟨rfl, rfl⟩

/-- C3 (evidence for the code bug): the classification half of the claim
holds — a 3-topic Transfer log is classified ERC-20, a 4-topic one ERC-721 —
but no TokenTransfer is ever recorded.  For the pending transaction whose
response carries the 3-topic Transfer log `log20`, the checked batch aborts
at the `evm_logs` foreign key (the parent `evm_transactions` row is only
inserted later in the loop), the cycle rolls back leaving the committed
store unchanged with no transfer rows; and even taken in isolation the
transfer statements are rejected: the value the ERC-20 branch binds (the
`0x…` data payload) and the value the ERC-721 branch binds (the fourth
topic) both fail the `NUMERIC` input conversion. -/
theorem evm_c3_transfer_never_recorded :
    detectTokenType log20 = some TokenType.ERC20 ∧
    detectTokenType log721 = some TokenType.ERC721 ∧
    Daemon.processBatchPg cResp dbResp20 [] 100 =
      Except.error PgError.fkViolation ∧
    Daemon.runBatchCyclePg cResp dbResp20 [] 100 =
      (dbResp20, Except.error PgError.fkViolation) ∧
    ((Daemon.runBatchCyclePg cResp dbResp20 [] 100).1).evm_token_transfers = [] ∧
    insertTransferPg ("t1", log20.log_index)
      { token_address := log20.address
        from_address := "0x" ++ (log20.topics.getD 1 "").drop 26
        to_address := "0x" ++ (log20.topics.getD 2 "").drop 26
        value := if log20.data = "" then "0x0" else log20.data } dbResp20 =
      Except.error PgError.invalidNumeric ∧
    insertTransferPg ("t1", log721.log_index)
      { token_address := log721.address
        from_address := "0x" ++ (log721.topics.getD 1 "").drop 26
        to_address := "0x" ++ (log721.topics.getD 2 "").drop 26
        value := log721.topics.getD 3 "" } dbResp20 =
      Except.error PgError.invalidNumeric := by
  exact ⟨by decide, by decide, rfl, rfl, rfl, rfl, rfl⟩

/-- Staged-level contract-row lemma behind C5: the rows the contract upsert
binds.  (Committed-state conclusions are drawn from this only when the row
processing commits, see `evm_c5_contract_creation_committed`.) -/
theorem c5_contract_staged (c : Codec) (db : DB) (cache : SigCache)
    (row : PendingRow) (tx : TxFields)
    (hparse : c.parseTx row.raw_bytes = some tx)
    (hto : tx.to_ = none)
    (hfrom : tx.from_ ≠ "")
    (hstat : (Daemon.enrichWithResponse c db row.tx_id
      (Daemon.decodedOf c row.raw_bytes row.tx_id row.gas_used tx)).1.status = 1)
    (hnk : nodupKeys db.evm_contracts) :
    alookup (lowerStr (c.getCreateAddress tx.from_ tx.nonce))
        (Daemon.processRow c (db, cache) row).1.evm_contracts =
      some { creator := lowerStr tx.from_
             creation_tx := row.tx_id
             creation_height := Daemon.heightOf db row.tx_id
             bytecode_hash :=
               if tx.data ≠ "" then some (c.keccakHex tx.data) else none } ∧
    keyCount (lowerStr (c.getCreateAddress tx.from_ tx.nonce))
      (Daemon.processRow c (db, cache) row).1.evm_contracts = 1 ∧
    nodupKeys (Daemon.processRow c (db, cache) row).1.evm_contracts ∧
    (∀ tx2 : TxFields, tx2.from_ = tx.from_ → tx2.nonce = tx.nonce →
      c.getCreateAddress tx2.from_ tx2.nonce = c.getCreateAddress tx.from_ tx.nonce) := by
  have hd := Daemon.decodeTransaction_eq_some c row.raw_bytes row.tx_id row.gas_used tx hparse
  set d0 := Daemon.decodedOf c row.raw_bytes row.tx_id row.gas_used tx with hd0
  set p1 := Daemon.enrichWithResponse c db row.tx_id d0 with hp1
  have hto1 : p1.1.to_ = none := by
    rw [hp1, Daemon.enrich_fst_to]
    exact hto
  have hfrom1 : p1.1.from_ ≠ "" := by
    rw [hp1, Daemon.enrich_fst_from]
    exact hfrom
  have hfrom1e : p1.1.from_ = tx.from_ := by
    rw [hp1, Daemon.enrich_fst_from]
    rfl
  have hnonce1 : p1.1.nonce = tx.nonce := by
    rw [hp1, Daemon.enrich_fst_nonce]
    rfl
  have hdata1 : p1.1.data = tx.data := by
    rw [hp1, Daemon.enrich_fst_data]
    rfl
  have hcrow : Daemon.contractRowOf c p1.2 row.tx_id p1.1 =
      { creator := lowerStr tx.from_
        creation_tx := row.tx_id
        creation_height := Daemon.heightOf db row.tx_id
        bytecode_hash := if tx.data ≠ "" then some (c.keccakHex tx.data) else none } := by
    unfold Daemon.contractRowOf Daemon.heightOf
    rw [hfrom1e, hdata1, hp1, Daemon.enrich_snd_main]
  have hkey1 : lowerStr (c.getCreateAddress p1.1.from_ p1.1.nonce) =
      lowerStr (c.getCreateAddress tx.from_ tx.nonce) := by
    rw [hfrom1e, hnonce1]
  have hcontracts :
      (Daemon.processRow c (db, cache) row).1.evm_contracts =
        upsertWith (lowerStr (c.getCreateAddress tx.from_ tx.nonce))
          ({ creator := lowerStr tx.from_
             creation_tx := row.tx_id
             creation_height := Daemon.heightOf db row.tx_id
             bytecode_hash :=
               if tx.data ≠ "" then some (c.keccakHex tx.data) else none } : ContractRow)
          (fun _ => { creator := lowerStr tx.from_
                      creation_tx := row.tx_id
                      creation_height := Daemon.heightOf db row.tx_id
                      bytecode_hash :=
                        if tx.data ≠ "" then some (c.keccakHex tx.data) else none })
          db.evm_contracts := by
    rw [Daemon.processRow_contracts_of c db cache row d0 hd]
    rw [Daemon.contractStep_contracts c p1.2 row.tx_id p1.1 hto1 hfrom1 hstat]
    rw [hcrow, hkey1, hp1, Daemon.enrich_snd_contracts]
  refine ⟨?_, ?_, ?_, ?_⟩
  · rw [hcontracts, upsertWith_lookup_self]
    cases alookup (lowerStr (c.getCreateAddress tx.from_ tx.nonce)) db.evm_contracts with
    | none => rfl
    | some old => rfl
  · have hnd2 : nodupKeys (Daemon.processRow c (db, cache) row).1.evm_contracts := by
      rw [hcontracts]
      exact nodupKeys_upsertWith hnk
    have hm : amem (lowerStr (c.getCreateAddress tx.from_ tx.nonce))
        (Daemon.processRow c (db, cache) row).1.evm_contracts = true := by
      unfold amem
      rw [hcontracts, upsertWith_lookup_self]
      rfl
    exact keyCount_eq_one_of_nodup hnd2 hm
  · rw [hcontracts]
    exact nodupKeys_upsertWith hnk
  · intro tx2 h1 h2
    rw [h1, h2]

/-- C5 counterexample: a contract-creation transaction satisfying the
claim's hypotheses — recipient absent, sender known, successful execution
(the decoded response carries no VM error) — whose response carries a
constructor log: the checked batch aborts at the `evm_logs` foreign key
before the contract upsert, the cycle rolls back, and no Contract row exists
at the derived address. -/
theorem evm_c5_counterexample :
    txCreate.to_ = none ∧
    txCreate.from_ ≠ "" ∧
    cResp.parseResponse "resp20" = some respLog20 ∧
    respLog20.vmError = none ∧
    Daemon.runBatchCyclePg cResp dbCreateResp [] 100 =
      (dbCreateResp, Except.error PgError.fkViolation) ∧
    alookup (lowerStr (cResp.getCreateAddress txCreate.from_ txCreate.nonce))
      ((Daemon.runBatchCyclePg cResp dbCreateResp [] 100).1).evm_contracts = none := by
  exact ⟨rfl, by decide, rfl, rfl, rfl, rfl⟩

/-- C5 as amended: for every contract-creation transaction (recipient
absent, sender known, resolved execution status success) whose execution
response is absent, undecodable, or carries no logs — the only creation
transactions whose batch row commits; a response log aborts the batch at the
`evm_logs` insert before the contract write — the checked row processing
commits, the committed store holds exactly one Contract row keyed by the
lowercased derived address with the creator stored lowercased, and the
derived address is a function of (sender, sequence number) alone. -/
theorem evm_c5_contract_creation_committed (c : Codec) (db : DB)
    (cache : SigCache) (row : PendingRow) (tx : TxFields)
    (hparse : c.parseTx row.raw_bytes = some tx)
    (hto : tx.to_ = none)
    (hfrom : tx.from_ ≠ "")
    (hstat : (Daemon.enrichWithResponse c db row.tx_id
      (Daemon.decodedOf c row.raw_bytes row.tx_id row.gas_used tx)).1.status = 1)
    (hlogs : Daemon.responseLogsEmpty c db row.tx_id)
    (hnk : nodupKeys db.evm_contracts) :
    Daemon.processRowPg c (db, cache) row =
      Except.ok (Daemon.processRow c (db, cache) row) ∧
    (alookup (lowerStr (c.getCreateAddress tx.from_ tx.nonce))
        (Daemon.processRow c (db, cache) row).1.evm_contracts =
      some { creator := lowerStr tx.from_
             creation_tx := row.tx_id
             creation_height := Daemon.heightOf db row.tx_id
             bytecode_hash :=
               if tx.data ≠ "" then some (c.keccakHex tx.data) else none } ∧
     keyCount (lowerStr (c.getCreateAddress tx.from_ tx.nonce))
       (Daemon.processRow c (db, cache) row).1.evm_contracts = 1 ∧
     nodupKeys (Daemon.processRow c (db, cache) row).1.evm_contracts ∧
     (∀ tx2 : TxFields, tx2.from_ = tx.from_ → tx2.nonce = tx.nonce →
       c.getCreateAddress tx2.from_ tx2.nonce =
         c.getCreateAddress tx.from_ tx.nonce)) :=
  ⟨processRowPg_ok_of_no_logs c (db, cache) row tx hparse hlogs,
   c5_contract_staged c db cache row tx hparse hto hfrom hstat hnk⟩

/-- C5 witness: the fixture creation transaction `t2` (no response data)
commits and yields one contract row keyed at the derived address with a
lowercased creator. -/
theorem evm_c5_committed_witness :
    cGood.parseTx pendCreate.raw_bytes = some txCreate ∧
    txCreate.to_ = none ∧
    txCreate.from_ ≠ "" ∧
    (Daemon.enrichWithResponse cGood dbCreate pendCreate.tx_id
      (Daemon.decodedOf cGood pendCreate.raw_bytes pendCreate.tx_id
        pendCreate.gas_used txCreate)).1.status = 1 ∧
    Daemon.responseLogsEmpty cGood dbCreate pendCreate.tx_id ∧
    nodupKeys dbCreate.evm_contracts ∧
    (Daemon.processRowPg cGood (dbCreate, []) pendCreate =
      Except.ok (Daemon.processRow cGood (dbCreate, []) pendCreate) ∧
     (alookup (lowerStr (cGood.getCreateAddress txCreate.from_ txCreate.nonce))
        (Daemon.processRow cGood (dbCreate, []) pendCreate).1.evm_contracts =
      some { creator := lowerStr txCreate.from_
             creation_tx := pendCreate.tx_id
             creation_height := Daemon.heightOf dbCreate pendCreate.tx_id
             bytecode_hash :=
               if txCreate.data ≠ "" then some (cGood.keccakHex txCreate.data)
               else none } ∧
      keyCount (lowerStr (cGood.getCreateAddress txCreate.from_ txCreate.nonce))
        (Daemon.processRow cGood (dbCreate, []) pendCreate).1.evm_contracts = 1 ∧
      nodupKeys (Daemon.processRow cGood (dbCreate, []) pendCreate).1.evm_contracts ∧
      (∀ tx2 : TxFields, tx2.from_ = txCreate.from_ → tx2.nonce = txCreate.nonce →
        cGood.getCreateAddress tx2.from_ tx2.nonce =
          cGood.getCreateAddress txCreate.from_ txCreate.nonce))) :=
  ⟨by decide, rfl, by decide, by decide, by trivial, List.Pairwise.nil,
   evm_c5_contract_creation_committed cGood dbCreate [] pendCreate txCreate
     (by decide) rfl (by decide) (by decide) (by trivial) List.Pairwise.nil⟩

/-- C6 (evidence for the code bug): the Token registry is never written.
For the pending transaction whose response carries the 4-topic Transfer log
`log721`, the checked batch aborts at the `evm_logs` foreign key before any
`evm_tokens` upsert runs, the cycle rolls back, and the committed registry
stays empty.  Moreover, at the statement level the ERC-1155 branch's
unguarded `DO UPDATE SET type = 'ERC1155'` would overwrite an existing
ERC-721 entry — a type change whose source is not the ERC-20 default — so
had the statements been reachable they would still not implement the claimed
upgrade discipline. -/
theorem evm_c6_tokens_never_written :
    Daemon.processBatchPg cResp dbResp721 [] 100 =
      Except.error PgError.fkViolation ∧
    Daemon.runBatchCyclePg cResp dbResp721 [] 100 =
      (dbResp721, Except.error PgError.fkViolation) ∧
    ((Daemon.runBatchCyclePg cResp dbResp721 [] 100).1).evm_tokens = [] ∧
    alookup "0xtokenA"
        (Daemon.tokenBranchUpdate log1155
          [("0xtokenA", { type := TokenType.ERC721, is_verified := false })]) =
      some { type := TokenType.ERC1155, is_verified := false } ∧
    TokenType.ERC721 ≠ TokenType.ERC20 := by
  exact ⟨rfl, rfl, rfl, by decide, by decide⟩

/-- C9 counterexample: for the same pending transaction `t1`, the Batch
Scheduler's checked cycle commits a decoded row, while decode-one returns a
failure with the store unchanged — `t1` is still in the pending view
afterwards: its `DELETE FROM api.evm_pending_decode` targets a non-updatable
view, raises, and rolls the insert back.  The two paths do not persist
equivalent records, and the priority path's "same atomic write" never
happens. -/
theorem evm_c9_counterexample :
    Single.decodeSingleTransaction cGood dbGood "t1" =
      ({ success := false, message := PgError.nonUpdatableView.message }, dbGood) ∧
    "t1" ∈ (evm_pending_decode
      (Single.decodeSingleTransaction cGood dbGood "t1").2).map PendingRow.tx_id ∧
    amem "t1" ((Daemon.runBatchCyclePg cGood dbGood [] 100).1).evm_transactions =
      true := by
  exact ⟨by decide, by decide, by decide⟩

/-- C9 as amended: decode-one runs only the envelope-decode step — for any
codec both paths derive the same envelope core (hash, sender, recipient,
nonce, gas fields, value, data, type, chain id, gas used, status) from the
same input bytes — but the priority path never persists anything: every call
returns the store unchanged, and on a pending, parseable transaction it
answers `success: false` with the view-DELETE error, leaving the transaction
in the pending set. -/
theorem evm_c9_priority_never_persists (c : Codec) :
    (∀ (raw txId : String) (g : Option Int),
      (Daemon.decodeTransaction c raw txId g).map coreOf =
        (Single.decodeTransaction c raw txId g).map coreOf) ∧
    (∀ (db : DB) (txId : String),
      (Single.decodeSingleTransaction c db txId).2 = db) ∧
    (∀ (db : DB) (txId : String) (row : PendingRow) (d : DecodedTx),
      (evm_pending_decode db).find? (fun r => r.tx_id == txId) = some row →
      Single.decodeTransaction c row.raw_bytes row.tx_id row.gas_used = some d →
      Single.decodeSingleTransaction c db txId =
        ({ success := false, message := PgError.nonUpdatableView.message }, db) ∧
      row ∈ evm_pending_decode db) := by
  refine ⟨?_, ?_, ?_⟩
  · intro raw txId g
    unfold Daemon.decodeTransaction Single.decodeTransaction
    cases c.parseTx raw with
    | none => rfl
    | some tx => rfl
  · intro db txId
    unfold Single.decodeSingleTransaction
    cases (evm_pending_decode db).find? (fun r => r.tx_id == txId) with
    | none =>
      dsimp only
      split <;> rfl
    | some row =>
      dsimp only
      cases Single.decodeTransaction c row.raw_bytes row.tx_id row.gas_used with
      | none => rfl
      | some d => rfl
  · intro db txId row d hfind hdec
    constructor
    · unfold Single.decodeSingleTransaction
      rw [hfind]
      dsimp only
      rw [hdec]
      rfl
    · exact List.mem_of_find?_eq_some hfind

/-- C9 witness: for the fixture call transaction the two paths agree on the
envelope core, and decode-one on the pending `t1` persists nothing and
reports the view-DELETE failure. -/
theorem evm_c9_never_persists_witness :
    ((Daemon.decodeTransaction cGood "rawGood" "t1" none).map coreOf =
      (Single.decodeTransaction cGood "rawGood" "t1" none).map coreOf) ∧
    (Single.decodeSingleTransaction cGood dbGood "t1").2 = dbGood ∧
    (Single.decodeSingleTransaction cGood dbGood "t1" =
      ({ success := false, message := PgError.nonUpdatableView.message }, dbGood) ∧
     pendGood ∈ evm_pending_decode dbGood) :=
  ⟨(evm_c9_priority_never_persists cGood).1 "rawGood" "t1" none,
   (evm_c9_priority_never_persists cGood).2.1 dbGood "t1",
   (evm_c9_priority_never_persists cGood).2.2 dbGood "t1" pendGood
     (Single.decodedOf cGood "rawGood" "t1" none txGood) (by decide) (by decide)⟩

/-- General form behind C1: for any batch member whose envelope fails to
parse, the staged batch state binds the key to the sentinel row, the key
leaves the derived pending view, and no later cycle ever selects it again. -/
theorem c1_sentinel_general (c : Codec) (db : DB) (cache : SigCache) (n : Nat)
    (row : PendingRow)
    (hnodup : (db.pending_source.map PendingRow.tx_id).Nodup)
    (hrow : row ∈ (evm_pending_decode db).take n)
    (hparse : c.parseTx row.raw_bytes = none) :
    alookup row.tx_id (Daemon.processBatch c db cache n).1.evm_transactions =
      some (Daemon.sentinelRow row.tx_id) ∧
    row.tx_id ∉
      (evm_pending_decode (Daemon.processBatch c db cache n).1).map PendingRow.tx_id ∧
    (∀ cycles : List (Nat × Option Nat),
      row.tx_id ∉ (evm_pending_decode (Daemon.runCycles c
        ((Daemon.processBatch c db cache n).1,
         (Daemon.processBatch c db cache n).2.1) cycles).1).map PendingRow.tx_id) := by
  have hmem_pend : row ∈ evm_pending_decode db := List.take_subset n _ hrow
  have habs : amem row.tx_id db.evm_transactions = false := by
    have h2 := (List.mem_filter.mp hmem_pend).2
    simpa using h2
  have hdec : Daemon.decodeTransaction c row.raw_bytes row.tx_id row.gas_used = none :=
    Daemon.decodeTransaction_eq_none c _ _ _ hparse
  have hsub1 : (evm_pending_decode db).Sublist db.pending_source :=
    List.filter_sublist _
  have hsub2 : ((evm_pending_decode db).take n).Sublist db.pending_source :=
    (List.take_sublist _ _).trans hsub1
  have hnodup_batch : (((evm_pending_decode db).take n).map PendingRow.tx_id).Nodup :=
    hnodup.sublist (hsub2.map _)
  obtain ⟨pre, suf, hsplit⟩ := List.append_of_mem hrow
  have hmap : (((evm_pending_decode db).take n).map PendingRow.tx_id) =
      pre.map PendingRow.tx_id ++ row.tx_id :: suf.map PendingRow.tx_id := by
    rw [hsplit]
    simp
  rw [hmap] at hnodup_batch
  have hnotpre : row.tx_id ∉ pre.map PendingRow.tx_id := by
    intro hcontra
    exact (List.disjoint_of_nodup_append hnodup_batch) hcontra
      (List.mem_cons_self _ _)
  have hPB : (Daemon.processBatch c db cache n).1 =
      ((pre ++ row :: suf).foldl (Daemon.processRow c) (db, cache)).1 := by
    unfold Daemon.processBatch
    dsimp only
    rw [hsplit]
  have hkey : alookup row.tx_id
      ((pre ++ row :: suf).foldl (Daemon.processRow c) (db, cache)).1.evm_transactions =
      some (Daemon.sentinelRow row.tx_id) := by
    rw [List.foldl_append, List.foldl_cons]
    apply Daemon.foldRows_preserve_some
    rw [Daemon.processRow_sentinel c _ row hdec]
    apply alookup_insertIfAbsent_self
    rw [amem_eq_false_iff]
    apply Daemon.foldRows_preserve_none c pre (db, cache)
    · intro r hr heq
      exact hnotpre (heq ▸ List.mem_map_of_mem PendingRow.tx_id hr)
    · exact (amem_eq_false_iff _ _).mp habs
  have hconj1 : alookup row.tx_id
      (Daemon.processBatch c db cache n).1.evm_transactions =
      some (Daemon.sentinelRow row.tx_id) := by
    rw [hPB]
    exact hkey
  have hamem : amem row.tx_id (Daemon.processBatch c db cache n).1.evm_transactions
      = true := by
    unfold amem
    rw [hconj1]
    rfl
  refine ⟨hconj1, not_mem_pending_of_amem hamem, ?_⟩
  intro cycles
  exact not_mem_pending_of_amem (Daemon.runCycles_amem_mono c _ cycles hamem)

/-- C1 (evidence for the code bug): on the application level the daemon stages
exactly the claimed behavior for the malformed pending transaction `tbad` —
a sentinel row with status `-1`, distinct from success (`1`) and VM failure
(`0`), after which `tbad` is out of the pending view and no later cycle ever
selects it again.  But the staged sentinel violates the schema of
`api.evm_transactions` (`evmTxNotNull` is false: the insert omits the
NOT-NULL-without-default columns `nonce`, `gas_limit`, `gas_price`, `value`),
while every successfully decoded row satisfies it — so in PostgreSQL the
sentinel insert is rejected, the batch aborts, and the transaction never
leaves the pending set. -/
theorem evm_c1_malformed_envelope_sentinel :
    alookup "tbad" (Daemon.processBatch cNone dbBad [] 100).1.evm_transactions =
      some (Daemon.sentinelRow "tbad") ∧
    (Daemon.sentinelRow "tbad").status = -1 ∧
    (Daemon.sentinelRow "tbad").status ≠ 1 ∧
    (Daemon.sentinelRow "tbad").status ≠ 0 ∧
    "tbad" ∉
      (evm_pending_decode (Daemon.processBatch cNone dbBad [] 100).1).map
        PendingRow.tx_id ∧
    (∀ cycles : List (Nat × Option Nat),
      "tbad" ∉ (evm_pending_decode (Daemon.runCycles cNone
        ((Daemon.processBatch cNone dbBad [] 100).1,
         (Daemon.processBatch cNone dbBad [] 100).2.1) cycles).1).map
        PendingRow.tx_id) ∧
    evmTxNotNull (Daemon.sentinelRow "tbad") = false ∧
    (∀ d : DecodedTx, evmTxNotNull (Daemon.txRowOfDecoded d) = true) := by
  obtain ⟨h1, h2, h3⟩ :=
    c1_sentinel_general cNone dbBad [] 100 pendBad (by decide) (by decide) rfl
  exact ⟨h1, rfl, by decide, by decide, h2, h3, rfl, fun d => rfl⟩

end YaciEvm
